import Mathlib

/-!
Verification development for the fitbit-agent repository.

Strings from the Go source are modelled as `List Char`.  Go `float64`
arithmetic is modelled with exact rationals: the operations the program
performs on numbers (parsing decimal literals, one division, addition,
comparisons against small constants) are modelled exactly.  To keep all
definitions kernel-computable the rationals are represented by the type
`Q` below (numerator/denominator pairs kept in lowest terms by a
structural gcd), rather than Mathlib's `ℚ` whose arithmetic does not
reduce inside `decide`.

`strconv.ParseFloat` is modelled on the decimal forms of its grammar
(optional sign, digits, optional fraction, optional exponent); the
hexadecimal and Inf/NaN forms never arise in the inputs of interest
here.
-/

set_option maxRecDepth 100000

namespace FitbitAgent

/-- Euclid's algorithm with explicit fuel, so that it is structurally
recursive and reduces inside the kernel. -/
def gcdFuel : Nat → Nat → Nat → Nat
  | 0, _, b => b
  | fuel + 1, a, b => if a = 0 then b else gcdFuel fuel (b % a) a

/-- Greatest common divisor (kernel-computable). -/
def ngcd (a b : Nat) : Nat :=
  gcdFuel (a + b + 1) a b

/-- Exact rational numbers in lowest terms with a positive denominator
(zero is `⟨0, 1⟩`).  All values in this development are built by the
smart constructors below, which normalize, so propositional equality of
the representations coincides with equality of the represented
rationals. -/
structure Q where
  num : Int
  den : Nat
deriving DecidableEq, Repr

/-- Build a normalized rational from a fraction of integers.  A zero
denominator (which the modelled program always guards against) yields
the junk value `⟨0, 0⟩`. -/
def mkQ (n d : Int) : Q :=
  if d = 0 then ⟨0, 0⟩
  else
    let neg : Bool := (decide (n < 0)) != (decide (d < 0))
    let na := n.natAbs
    let da := d.natAbs
    let g := ngcd na da
    let nn := na / g
    let dd := da / g
    ⟨if neg then -(nn : Int) else (nn : Int), dd⟩

/-- The integer `n` as a rational. -/
def intQ (n : Int) : Q :=
  ⟨n, 1⟩

/-- The natural `n` as a rational. -/
def natQ (n : Nat) : Q :=
  ⟨(n : Int), 1⟩

/-- Rational addition. -/
def Q.add (a b : Q) : Q :=
  mkQ (a.num * (b.den : Int) + b.num * (a.den : Int)) ((a.den : Int) * (b.den : Int))

/-- Rational negation. -/
def Q.neg (a : Q) : Q :=
  ⟨-a.num, a.den⟩

/-- Rational subtraction. -/
def Q.sub (a b : Q) : Q :=
  a.add b.neg

/-- Rational multiplication. -/
def Q.mul (a b : Q) : Q :=
  mkQ (a.num * b.num) ((a.den : Int) * (b.den : Int))

/-- Rational division (Go float division; the program guards the
denominator against zero wherever it divides). -/
def Q.div (a b : Q) : Q :=
  mkQ (a.num * (b.den : Int)) ((a.den : Int) * b.num)

/-- Strict order, as the boolean the Go comparisons produce. -/
def Q.blt (a b : Q) : Bool :=
  decide (a.num * (b.den : Int) < b.num * (a.den : Int))

/-- Non-strict order, as a boolean. -/
def Q.ble (a b : Q) : Bool :=
  decide (a.num * (b.den : Int) ≤ b.num * (a.den : Int))

/-- `10 ^ n` over the integers, structurally recursive. -/
def pow10Z : Nat → Int
  | 0 => 1
  | n + 1 => 10 * pow10Z n

/-- ASCII whitespace recognised by Go `unicode.IsSpace` (the Unicode
space characters beyond ASCII are not modelled). -/
def isSpaceChar (c : Char) : Bool :=
  c == ' ' || c == '\t' || c == '\n' || c == '\x0b' || c == '\x0c' || c == '\r'

/-- Go `strings.TrimSpace`, left part. -/
def trimLeftSpace (s : List Char) : List Char :=
  s.dropWhile isSpaceChar

/-- Go `strings.TrimSpace`, right part. -/
def trimRightSpace (s : List Char) : List Char :=
  (s.reverse.dropWhile isSpaceChar).reverse

/-- Go `strings.TrimSpace`. -/
def trimSpace (s : List Char) : List Char :=
  trimRightSpace (trimLeftSpace s)

/-- Go `strings.ToLower` on ASCII letters. -/
def toLowerChar (c : Char) : Char :=
  if 65 ≤ c.toNat ∧ c.toNat ≤ 90 then Char.ofNat (c.toNat + 32) else c

/-- Go `strings.ToLower` on a string. -/
def lowerStr (s : List Char) : List Char :=
  s.map toLowerChar

/-- ASCII decimal digit test. -/
def isDigitChar (c : Char) : Bool :=
  48 ≤ c.toNat && c.toNat ≤ 57

/-- Leading run of decimal digits. -/
def takeDigits (s : List Char) : List Char :=
  s.takeWhile isDigitChar

/-- Remainder after the leading run of decimal digits. -/
def dropDigits (s : List Char) : List Char :=
  s.dropWhile isDigitChar

/-- Numeric value of a digit string. -/
def digitsToNat (s : List Char) : Nat :=
  s.foldl (fun a c => a * 10 + (c.toNat - 48)) 0

/-- Go `strings.Contains`: `pat` occurs as a contiguous substring of `s`. -/
def containsSubstr (s pat : List Char) : Bool :=
  if pat.isPrefixOf s then true
  else
    match s with
    | [] => false
    | _ :: rest => containsSubstr rest pat

/-- Value of a decimal mantissa `d1 . d2`. -/
def mantissaVal (d1 d2 : List Char) : Q :=
  (intQ (digitsToNat d1 : Int)).add (mkQ (digitsToNat d2 : Int) (pow10Z d2.length))

/-- Model of Go `strconv.ParseFloat` on its decimal grammar:
`[+-]? (digits [. digits?] | . digits) ([eE] [+-]? digits)?`, consuming
the entire string.  The result is the exact rational value of the
literal. -/
def parseFloat (s : List Char) : Option Q :=
  let (neg, r) :=
    match s with
    | '+' :: r => (false, r)
    | '-' :: r => (true, r)
    | r => (false, r)
  let d1 := takeDigits r
  let r1 := dropDigits r
  let (d2, r2) :=
    match r1 with
    | '.' :: rest => (takeDigits rest, dropDigits rest)
    | rest => (([] : List Char), rest)
  if d1 = [] ∧ d2 = [] then none
  else
    let mant := mantissaVal d1 d2
    let signed := if neg then mant.neg else mant
    match r2 with
    | [] => some signed
    | 'e' :: r3 => parseFloatExp signed r3
    | 'E' :: r3 => parseFloatExp signed r3
    | _ => none
where
  /-- exponent part: `[+-]? digits`, consuming the rest. -/
  parseFloatExp (mant : Q) (s : List Char) : Option Q :=
    let (eneg, r) :=
      match s with
      | '+' :: r => (false, r)
      | '-' :: r => (true, r)
      | r => (false, r)
    let ed := takeDigits r
    if ed = [] ∨ dropDigits r ≠ [] then none
    else if eneg then some (mant.div (intQ (pow10Z (digitsToNat ed))))
    else some (mant.mul (intQ (pow10Z (digitsToNat ed))))

/-- The fixed word-number table of `extractNumberFromText`
(src/unnamed/part_000, lines 832-837). -/
def wordNumberTable : List (List Char × Q) :=
  [ (("zero").toList, natQ 0), (("one").toList, natQ 1), (("two").toList, natQ 2),
    (("three").toList, natQ 3), (("four").toList, natQ 4), (("five").toList, natQ 5),
    (("six").toList, natQ 6), (("seven").toList, natQ 7), (("eight").toList, natQ 8),
    (("nine").toList, natQ 9), (("ten").toList, natQ 10),
    (("half").toList, mkQ 1 2), (("quarter").toList, mkQ 1 4),
    (("third").toList, mkQ 33 100), (("couple").toList, natQ 2),
    (("few").toList, natQ 3), (("dozen").toList, natQ 12),
    (("pair").toList, natQ 2), (("single").toList, natQ 1) ]

/-- The leading decimal-or-integer pattern of `extractNumberFromText`:
Go regexp `^(\d+\.?\d*|\d*\.\d+)`, then `strconv.ParseFloat` on the
match; 0 when there is no match. -/
def leadingDecimalValue (t : List Char) : Q :=
  match t with
  | [] => natQ 0
  | c :: rest =>
    if isDigitChar c then
      let d1 := takeDigits t
      match dropDigits t with
      | '.' :: r2 => mantissaVal d1 (takeDigits r2)
      | _ => natQ (digitsToNat d1)
    else if c = '.' then
      let d2 := takeDigits rest
      if d2 = [] then natQ 0 else mantissaVal [] d2
    else natQ 0

/-- `extractNumberFromText` (src/unnamed/part_000, lines 828-862):
word-number table, then the fraction pattern `^(\d+)/(\d+)` evaluated
as numerator/denominator (skipped when the denominator is zero), then
the leading decimal pattern; 0 signals failure. -/
def extractNumberFromText (text : List Char) : Q :=
  let t := trimSpace (lowerStr text)
  match List.lookup t wordNumberTable with
  | some v => v
  | none =>
    let numd := takeDigits t
    let fracRest := dropDigits t
    match numd, fracRest with
    | _ :: _, '/' :: r2 =>
      let dend := takeDigits r2
      if dend ≠ [] ∧ digitsToNat dend ≠ 0 then
        (natQ (digitsToNat numd)).div (natQ (digitsToNat dend))
      else leadingDecimalValue t
    | _, _ => leadingDecimalValue t

/-- A Go `any` (interface{}) value as produced by `encoding/json`
unmarshalling, plus the int cases the source handles. -/
inductive GoVal where
  | null
  | num (q : Q)
  | intv (n : Int)
  | str (s : List Char)
  | boolean (b : Bool)
  | arr
  | obj
deriving DecidableEq, Repr

instance {ε α : Type} [DecidableEq ε] [DecidableEq α] : DecidableEq (Except ε α) :=
  fun a b =>
    match a, b with
    | .ok x, .ok y =>
      if h : x = y then .isTrue (by rw [h]) else .isFalse (by intro hc; cases hc; exact h rfl)
    | .error x, .error y =>
      if h : x = y then .isTrue (by rw [h]) else .isFalse (by intro hc; cases hc; exact h rfl)
    | .ok _, .error _ => .isFalse (by intro hc; cases hc)
    | .error _, .ok _ => .isFalse (by intro hc; cases hc)

/-- `parseNumberField` (src/unnamed/part_000, lines 788-825): converts a
flexible number field (string or number) to a float, failing with an
error that names the field. -/
def parseNumberField (v : GoVal) (fieldName : List Char) : Except (List Char) Q :=
  match v with
  | .null => .error (fieldName ++ (" is required").toList)
  | .num q => .ok q
  | .intv n => .ok (intQ n)
  | .str s =>
    let t := trimSpace s
    if t = [] then .error (fieldName ++ (" cannot be empty").toList)
    else
      match parseFloat t with
      | some q => .ok q
      | none =>
        let low := lowerStr t
        let n := extractNumberFromText low
        if (natQ 0).blt n then .ok n
        else .error (fieldName ++ (" must be a number, got: ").toList ++ low)
  | .boolean _ => .error (fieldName ++ (" must be a number, got type: bool").toList)
  | .arr => .error (fieldName ++ (" must be a number, got type: []interface \x7b\x7d").toList)
  | .obj => .error (fieldName ++ (" must be a number, got type: map[string]interface \x7b\x7d").toList)

/-- Decimal representation of a natural number. -/
def natRepr (n : Nat) : List Char :=
  (Nat.repr n).toList

/-- Decimal representation of an integer (Go `strconv.Itoa`, `%d`). -/
def intRepr (n : Int) : List Char :=
  if n < 0 then '-' :: natRepr n.natAbs else natRepr n.natAbs

/-- Floor of a rational. -/
def floorQ (q : Q) : Int :=
  Int.fdiv q.num (q.den : Int)

/-- Round to the nearest integer, ties to even (the rounding Go's `fmt`
uses for `%.0f`). -/
def roundHalfEven (q : Q) : Int :=
  let f := floorQ q
  let r := q.sub (intQ f)
  let twice := r.add r
  if twice.blt (natQ 1) then f
  else if (natQ 1).blt twice then f + 1
  else if f % 2 = 0 then f else f + 1

/-- Go `fmt` `%.0f` on an exact value. -/
def fmtF0 (q : Q) : List Char :=
  intRepr (roundHalfEven q)

/-- `formatQuantity` (src/unnamed/part_000, lines 553-559): whole
numbers without decimals, otherwise `%.1f`. -/
def formatQuantity (q : Q) : List Char :=
  if q.den = 1 then intRepr q.num
  else
    let n10 := roundHalfEven (q.mul (natQ 10))
    if n10 < 0 then
      '-' :: (natRepr ((-n10).toNat / 10) ++ '.' :: natRepr ((-n10).toNat % 10))
    else natRepr (n10.toNat / 10) ++ '.' :: natRepr (n10.toNat % 10)

/-- Lower-case hexadecimal digit. -/
def hexDigit (n : Nat) : Char :=
  if n < 10 then Char.ofNat (48 + n) else Char.ofNat (87 + n)

/-- Go `strconv.Quote` (used by `fmt` `%q`) on one character.  ASCII is
modelled exactly; printable non-ASCII characters are emitted verbatim
as Go does, and the `\u` forms for unprintable non-ASCII runes are not
modelled (they do not arise here). -/
def goQuoteChar (c : Char) : List Char :=
  if c = '"' then ['\\', '"']
  else if c = '\\' then ['\\', '\\']
  else if c = '\x07' then ['\\', 'a']
  else if c = '\x08' then ['\\', 'b']
  else if c = '\x0c' then ['\\', 'f']
  else if c = '\n' then ['\\', 'n']
  else if c = '\r' then ['\\', 'r']
  else if c = '\t' then ['\\', 't']
  else if c = '\x0b' then ['\\', 'v']
  else if 32 ≤ c.toNat ∧ c.toNat ≤ 126 then [c]
  else if c.toNat < 32 ∨ c.toNat = 127 then
    ['\\', 'x', hexDigit (c.toNat / 16), hexDigit (c.toNat % 16)]
  else [c]

/-- Go `strconv.Quote` / `%q` on a string. -/
def goQuote (s : List Char) : List Char :=
  '"' :: ((s.map goQuoteChar).flatten ++ ['"'])

/-- `FoodItem` (src/unnamed/part_000, lines 385-414): one food item with
every synonym field the source accepts.  Absent JSON fields and
explicit JSON nulls both unmarshal to a nil interface value, modelled
as `GoVal.null`. -/
structure FoodItem where
  name : List Char := []
  foodItem : List Char := []
  item : List Char := []
  food : List Char := []
  quantity : GoVal := .null
  amount : GoVal := .null
  serving : GoVal := .null
  count : GoVal := .null
  unit : List Char := []
  units : List Char := []
  measurement : List Char := []
  size : List Char := []
  calories : GoVal := .null
  cals : GoVal := .null
  cal : GoVal := .null
  energy : GoVal := .null
  preparation : List Char := []
  breadType : List Char := []
  cookingMethod : List Char := []
deriving DecidableEq, Repr

/-- `LogMealInput` (src/unnamed/part_000, lines 370-382). -/
structure LogMealInput where
  mealType : List Char := []
  foods : List FoodItem := []
  toast : List FoodItem := []
  snacks : List FoodItem := []
  items : List FoodItem := []
  foodItems : List FoodItem := []
  mealTime : List Char := []
  timeField : List Char := []
  notes : List Char := []
  description : List Char := []
  totalCalories : GoVal := .null
deriving DecidableEq, Repr

/-- `ParsedFoodItem` (src/unnamed/part_000, lines 417-422). -/
structure ParsedFoodItem where
  name : List Char
  quantity : Q
  unit : List Char
  calories : Q
deriving DecidableEq, Repr

/-- First candidate whose trimmed form is non-blank, trimmed. -/
def firstNonBlank : List (List Char) → List Char
  | [] => []
  | c :: rest => if trimSpace c ≠ [] then trimSpace c else firstNonBlank rest

/-- `getAnyFoodName` (src/unnamed/part_000, lines 633-648). -/
def getAnyFoodName (food : FoodItem) : List Char :=
  firstNonBlank [food.name, food.foodItem, food.item, food.food]

/-- Candidate scan of `getAnyQuantity`: first non-nil candidate that
parses to a value strictly greater than 0. -/
def quantityScan : List GoVal → Except (List Char) Q
  | [] => .ok (natQ 1)
  | c :: rest =>
    if c = .null then quantityScan rest
    else
      match parseNumberField c (("quantity").toList) with
      | .ok qty => if (natQ 0).blt qty then .ok qty else quantityScan rest
      | .error _ => quantityScan rest

/-- `getAnyQuantity` (src/unnamed/part_000, lines 651-669): never fails;
defaults to 1 when no candidate parses to a positive value. -/
def getAnyQuantity (food : FoodItem) : Except (List Char) Q :=
  quantityScan [food.quantity, food.amount, food.serving, food.count]

/-- Candidate scan of `getAnyCalories`: first non-nil candidate that
parses to a value at least 0. -/
def caloriesScan : List GoVal → Except (List Char) Q
  | [] => .error (("calories must be specified").toList)
  | c :: rest =>
    if c = .null then caloriesScan rest
    else
      match parseNumberField c (("calories").toList) with
      | .ok cal => if (natQ 0).ble cal then .ok cal else caloriesScan rest
      | .error _ => caloriesScan rest

/-- `getAnyCalories` (src/unnamed/part_000, lines 672-689). -/
def getAnyCalories (food : FoodItem) : Except (List Char) Q :=
  caloriesScan [food.calories, food.cals, food.cal, food.energy]

/-- `normalizeUnit` (src/unnamed/part_000, lines 711-737). -/
def normalizeUnit (unit : List Char) : List Char :=
  let n := lowerStr (trimSpace unit)
  if n ∈ [("slice").toList, ("slices").toList, ("piece").toList, ("pieces").toList] then
    ("slices").toList
  else if n ∈ [("large").toList, ("medium").toList, ("small").toList, ("whole").toList,
      ("egg").toList, ("eggs").toList] then ("large").toList
  else if n ∈ [("cup").toList, ("cups").toList, ("c").toList] then ("cups").toList
  else if n ∈ [("tbsp").toList, ("tablespoon").toList, ("tablespoons").toList] then
    ("tbsp").toList
  else if n ∈ [("tsp").toList, ("teaspoon").toList, ("teaspoons").toList] then ("tsp").toList
  else if n ∈ [("oz").toList, ("ounce").toList, ("ounces").toList] then ("oz").toList
  else if n ∈ [("lb").toList, ("pound").toList, ("pounds").toList] then ("lbs").toList
  else if n ∈ [("g").toList, ("gram").toList, ("grams").toList] then ("g").toList
  else if n ∈ [("serving").toList, ("servings").toList, ("portion").toList,
      ("portions").toList] then ("servings").toList
  else n

/-- `getDefaultUnit` (src/unnamed/part_000, lines 740-754). -/
def getDefaultUnit (foodName : List Char) : List Char :=
  let n := lowerStr foodName
  if containsSubstr n (("toast").toList) || containsSubstr n (("bread").toList) ||
      containsSubstr n (("slice").toList) then ("slices").toList
  else if containsSubstr n (("egg").toList) then ("large").toList
  else if containsSubstr n (("cup").toList) || containsSubstr n (("milk").toList) ||
      containsSubstr n (("juice").toList) then ("cups").toList
  else ("servings").toList

/-- `getAnyUnit` (src/unnamed/part_000, lines 692-708). -/
def getAnyUnit (food : FoodItem) (foodName : List Char) : List Char :=
  let cand := firstNonBlank [food.unit, food.units, food.measurement, food.size]
  if cand ≠ [] then normalizeUnit cand else getDefaultUnit foodName

/-- `normalizeMealType` (src/unnamed/part_000, lines 592-614). -/
def normalizeMealType (mealType : List Char) : List Char :=
  let n := lowerStr (trimSpace mealType)
  if n ∈ [("breakfast").toList, ("lunch").toList, ("dinner").toList, ("snack").toList] then n
  else if n ∈ [("morning").toList, ("am").toList] then ("breakfast").toList
  else if n ∈ [("noon").toList, ("midday").toList, ("afternoon").toList, ("pm").toList] then
    ("lunch").toList
  else if n ∈ [("evening").toList, ("night").toList, ("supper").toList] then ("dinner").toList
  else if n ∈ [("snacking").toList, ("treat").toList, ("dessert").toList] then ("snack").toList
  else []

/-- `collectAllFoods` (src/unnamed/part_000, lines 617-630). -/
def collectAllFoods (input : LogMealInput) : List FoodItem :=
  input.foods ++ input.toast ++ input.snacks ++ input.items ++ input.foodItems

/-- `getMealTime` (src/unnamed/part_000, lines 757-770). -/
def getMealTime (input : LogMealInput) : List Char :=
  let c := firstNonBlank [input.mealTime, input.timeField]
  if c ≠ [] then c else ("now").toList

/-- `getNotes` (src/unnamed/part_000, lines 773-786). -/
def getNotes (input : LogMealInput) : List Char :=
  firstNonBlank [input.notes, input.description]

/-- `LogMealTool.parseFoodItem` (src/unnamed/part_000, lines 562-589). -/
def parseFoodItem (food : FoodItem) : Except (List Char) ParsedFoodItem :=
  let name := getAnyFoodName food
  if name = [] then .error (("food item must have a name").toList)
  else
    match getAnyQuantity food with
    | .error e => .error e
    | .ok quantity =>
      match getAnyCalories food with
      | .error e => .error e
      | .ok calories => .ok ⟨name, quantity, getAnyUnit food name, calories⟩

/-- The food-parsing loop in `LogMealTool.Execute` (src/unnamed/part_000,
lines 465-472): the first failing item aborts with an error citing its
one-based position and best-effort name. -/
def parseFoodsLoop : Nat → List FoodItem → Except (List Char) (List ParsedFoodItem)
  | _, [] => .ok []
  | i, f :: rest =>
    match parseFoodItem f with
    | .error e =>
      .error ((("error parsing food item ").toList ++ natRepr (i + 1) ++ (" (").toList
        ++ getAnyFoodName f ++ ("): ").toList) ++ e)
    | .ok p =>
      match parseFoodsLoop (i + 1) rest with
      | .error e => .error e
      | .ok ps => .ok (p :: ps)

/-- Apostrophe character (U+0027). -/
def apos : Char :=
  Char.ofNat 39

/-- The (mojibake) lock glyph that opens the two authentication
messages in src/unnamed/part_000. -/
def mojiLock : List Char :=
  [Char.ofNat 240, Char.ofNat 376, Char.ofNat 8221]

/-- Glyph opening the success message. -/
def mojiCheck : List Char :=
  [Char.ofNat 226, Char.ofNat 339, Char.ofNat 8230]

/-- Glyph before the calorie total in the success message. -/
def mojiHundred : List Char :=
  [Char.ofNat 240, Char.ofNat 376, Char.ofNat 8217, Char.ofNat 175]

/-- Glyph before the closing line of the success message. -/
def mojiParty : List Char :=
  [Char.ofNat 240, Char.ofNat 376, Char.ofNat 381, Char.ofNat 8240]

/-- Glyph before the notes line of the success message. -/
def mojiMemo : List Char :=
  [Char.ofNat 240, Char.ofNat 376, Char.ofNat 8220]

/-- The authentication-required message returned by
`LogMealTool.Execute` (src/unnamed/part_000, lines 476-482). -/
def authRequiredMsg : List Char :=
  mojiLock ++ (" Authentication Required!\n\nTo log meals to Fitbit, you need to authenticate first. Let me help you with that.\n\nTOOL_CALL: fitbit_login(\x7b\x7d)\n\nAfter authentication, I").toList
    ++ apos :: ("ll log your meal automatically.").toList

/-- The authentication-expired message returned by
`LogMealTool.Execute` (src/unnamed/part_000, lines 507-513). -/
def authExpiredMsg : List Char :=
  mojiLock ++ (" Authentication Expired!\n\nYour Fitbit access token has expired. Let me help you re-authenticate.\n\nTOOL_CALL: fitbit_login(\x7b\x7d)\n\nAfter re-authentication, I").toList
    ++ apos :: ("ll log your meal automatically.").toList

/-- One line of the success food list: `- %s (%s %s): ~%.0f cal`. -/
def foodLine (f : ParsedFoodItem) : List Char :=
  ("- ").toList ++ f.name ++ (" (").toList ++ formatQuantity f.quantity ++ (" ").toList
    ++ f.unit ++ ("): ~").toList ++ fmtF0 f.calories ++ (" cal").toList

/-- The success message of `LogMealTool.Execute`
(src/unnamed/part_000, lines 532-541). -/
def successMsg (mealType mealTime foodsJoined : List Char) (total : Q) : List Char :=
  mojiCheck ++ (" Successfully logged ").toList ++ mealType ++ (" to Fitbit (").toList
    ++ mealTime ++ ("):\n").toList ++ foodsJoined ++ ("\n\n").toList ++ mojiHundred
    ++ (" Total: ~").toList ++ fmtF0 total
    ++ (" calories\n\n").toList ++ mojiParty
    ++ (" Meal logged to your Fitbit account! Check your Fitbit app to see the nutrition data.").toList

/-- The ambient credentials `LogMealTool` reads from the environment. -/
structure FitbitEnv where
  accessToken : List Char
  userID : List Char
deriving DecidableEq, Repr

/-- `LogMealTool.isAuthenticated` (src/unnamed/part_000, lines 865-870). -/
def isAuthenticated (env : FitbitEnv) : Bool :=
  env.accessToken ≠ []

/-- The per-item logging loop of `logMealToFitbit`: `statusOf i` is the
HTTP status the `i`-th food-log POST returns. -/
def logFoodsLoop (statusOf : Nat → Nat) : Nat → List ParsedFoodItem → Except (List Char) Unit
  | _, [] => .ok ()
  | i, f :: rest =>
    let st := statusOf i
    if st = 401 then .error (("unauthorized: access token may be expired (401)").toList)
    else if st < 200 ∨ 300 ≤ st then
      .error (("failed to log ").toList ++ f.name ++ (": HTTP ").toList ++ natRepr st)
    else logFoodsLoop statusOf (i + 1) rest

/-- `logMealToFitbit` (src/unnamed/part_000, lines 873-944), with the
network abstracted into the per-call HTTP status function `statusOf`. -/
def logMealToFitbit (env : FitbitEnv) (statusOf : Nat → Nat)
    (foods : List ParsedFoodItem) : Except (List Char) Unit :=
  if env.accessToken = [] then .error (("missing FITBIT_ACCESS_TOKEN").toList)
  else if env.userID = [] then .error (("missing FITBIT_USER_ID").toList)
  else logFoodsLoop statusOf 0 foods

/-- Total calories of the parsed foods. -/
def sumCalories (foods : List ParsedFoodItem) : Q :=
  foods.foldl (fun acc f => acc.add f.calories) (natQ 0)

/-- The calorie-mismatch error text. -/
def mismatchMsg (total expected : Q) : List Char :=
  ("calorie mismatch: calculated ").toList ++ fmtF0 total
    ++ (" calories but expected ").toList ++ fmtF0 expected ++ (" calories").toList

/-- `LogMealTool.Execute` (src/unnamed/part_000, lines 425-550), from
the point where the meal JSON has been decoded into `LogMealInput`:
meal-type normalization, food collection, per-item parsing,
authentication check, total-calorie cross-check, the remote logging
call (HTTP statuses supplied by `statusOf`), and response formatting. -/
def executeMeal (input : LogMealInput) (env : FitbitEnv)
    (statusOf : Nat → Nat) : Except (List Char) (List Char) :=
  let mealType := normalizeMealType input.mealType
  if mealType = [] then
    .error (("invalid or missing meal type. Must be one of: breakfast, lunch, dinner, snack. Got: ").toList
      ++ goQuote input.mealType)
  else
    let allFoods := collectAllFoods input
    if allFoods = [] then
      .error (("no food items found. Please provide at least one food item").toList)
    else
      match parseFoodsLoop 0 allFoods with
      | .error e => .error e
      | .ok parsedFoods =>
        if ¬ isAuthenticated env then .ok authRequiredMsg
        else
          let totalCalories := sumCalories parsedFoods
          let mismatch : Option (List Char) :=
            if input.totalCalories ≠ .null then
              match parseNumberField input.totalCalories (("total_calories").toList) with
              | .ok expectedTotal =>
                if (natQ 0).blt expectedTotal then
                  let diff := totalCalories.sub expectedTotal
                  if diff.blt (intQ (-50)) ∨ (intQ 50).blt diff then
                    some (mismatchMsg totalCalories expectedTotal)
                  else none
                else none
              | .error _ => none
            else none
          match mismatch with
          | some m => .error m
          | none =>
            match logMealToFitbit env statusOf parsedFoods with
            | .error e =>
              if containsSubstr e (("401").toList)
                  || containsSubstr e (("unauthorized").toList) then .ok authExpiredMsg
              else .error (("failed to log meal to Fitbit: ").toList ++ e)
            | .ok _ =>
              let base := successMsg mealType (getMealTime input)
                (List.intercalate (("\n").toList) (parsedFoods.map foodLine)) totalCalories
              let notes := getNotes input
              if notes ≠ [] then
                .ok (base ++ ("\n").toList ++ mojiMemo ++ (" Notes: ").toList ++ notes)
              else .ok base

/-- The character-by-character scan of `extractJSONManually`
(src/unnamed/part_003, lines 275-309), started just after the opening
parenthesis: returns the offset of the closing parenthesis at which the
nesting counter returns to zero (`none` when there is none).  The
parameters mirror the Go locals `parenCount`, `inString`, `escaped`. -/
def extractScan : List Char → Nat → Bool → Bool → Option Nat
  | [], _, _, _ => none
  | c :: rest, parenCount, inString, escaped =>
    if escaped then (extractScan rest parenCount inString false).map (· + 1)
    else if c = '\\' then (extractScan rest parenCount inString true).map (· + 1)
    else if c = '"' then (extractScan rest parenCount (! inString) false).map (· + 1)
    else if ¬ inString ∧ c = '(' then (extractScan rest (parenCount + 1) inString false).map (· + 1)
    else if ¬ inString ∧ c = ')' then
      if parenCount = 1 then some 0
      else (extractScan rest (parenCount - 1) inString false).map (· + 1)
    else (extractScan rest parenCount inString false).map (· + 1)

/-- `extractJSONManually` applied to the suffix that follows the opening
parenthesis: the argument span up to the balanced close (or the whole
remainder), whitespace-trimmed as in the source. -/
def extractBody (s : List Char) : List Char :=
  match extractScan s 1 false false with
  | some n => trimSpace (s.take n)
  | none => trimSpace s

/-- `extractJSONManually` (src/unnamed/part_003, lines 264-313). -/
def extractJSONManually (text : List Char) (startPos : Nat) : List Char :=
  if h : startPos < text.length then
    if text.get ⟨startPos, h⟩ = '(' then extractBody (text.drop (startPos + 1)) else []
  else []

/-- `fixCommonJSONIssues` (src/unnamed/part_003, lines 316-327): trim
whitespace, strip one trailing semicolon, trim again. -/
def fixCommonJSONIssues (s : List Char) : List Char :=
  let t := trimSpace s
  if t.getLast? = some ';' then trimSpace t.dropLast else t

/-- JSON insignificant whitespace (as in Go `encoding/json`). -/
def skipWs (s : List Char) : List Char :=
  s.dropWhile (fun c => c == ' ' || c == '\t' || c == '\n' || c == '\r')

/-- Hexadecimal digit test. -/
def isHexDigit (c : Char) : Bool :=
  isDigitChar c || (97 ≤ c.toNat && c.toNat ≤ 102) || (65 ≤ c.toNat && c.toNat ≤ 70)

/-- Scanner for the body of a JSON string literal (the opening quote
already consumed); returns the rest after the closing quote.  Models the
string states of Go `encoding/json`'s validity scanner: the listed
escapes and `\uXXXX` are legal, raw control characters are not. -/
def jsonStrRestAux : List Char → Bool → Nat → Option (List Char)
  | [], _, _ => none
  | c :: cs, esc, hex =>
    if 0 < hex then
      if isHexDigit c then jsonStrRestAux cs false (hex - 1) else none
    else if esc then
      if c ∈ ['"', '\\', '/', 'b', 'f', 'n', 'r', 't'] then jsonStrRestAux cs false 0
      else if c = 'u' then jsonStrRestAux cs false 4
      else none
    else if c = '"' then some cs
    else if c = '\\' then jsonStrRestAux cs true 0
    else if c.toNat < 32 then none
    else jsonStrRestAux cs false 0

/-- Body of a JSON string literal, starting outside any escape. -/
def jsonStrRest (s : List Char) : Option (List Char) :=
  jsonStrRestAux s false 0

/-- Exponent part of a JSON number: `[eE]` consumed by the caller. -/
def jsonExpRest (s : List Char) : Option (List Char) :=
  let s2 := match s with
    | '+' :: r => r
    | '-' :: r => r
    | r => r
  if takeDigits s2 = [] then none else some (dropDigits s2)

/-- Fraction and exponent part of a JSON number. -/
def jsonFracRest (s : List Char) : Option (List Char) :=
  let r3 := match s with
    | '.' :: rr => if takeDigits rr = [] then none else some (dropDigits rr)
    | rr => some rr
  match r3 with
  | none => none
  | some r =>
    match r with
    | 'e' :: rr => jsonExpRest rr
    | 'E' :: rr => jsonExpRest rr
    | _ => some r

/-- JSON number grammar: `-? (0 | [1-9][0-9]*) frac? exp?`. -/
def jsonNumRest (s : List Char) : Option (List Char) :=
  let s1 := match s with
    | '-' :: r => r
    | r => r
  match s1 with
  | [] => none
  | '0' :: r => jsonFracRest r
  | c :: _ =>
    if isDigitChar c then jsonFracRest (dropDigits s1) else none

/-- Literal keyword helper. -/
def stripLit (lit s : List Char) : Option (List Char) :=
  if lit.isPrefixOf s then some (s.drop lit.length) else none

/-- What the JSON scanner is currently reading: a value, the member
list of an object, or the element list of an array. -/
inductive JMode where
  | value
  | objStart
  | members
  | arrStart
  | elems
deriving DecidableEq, Repr

/-- Recursive-descent JSON scanner, structurally recursive on fuel so
that it reduces in the kernel; models Go `json.Valid`'s grammar. -/
def jsonScan : Nat → JMode → List Char → Option (List Char)
  | 0, _, _ => none
  | fuel + 1, .value, s =>
    match s with
    | [] => none
    | c :: r =>
      if c = '"' then jsonStrRest r
      else if c = '{' then jsonScan fuel .objStart (skipWs r)
      else if c = '[' then jsonScan fuel .arrStart (skipWs r)
      else if c = 't' then stripLit (("rue").toList) r
      else if c = 'f' then stripLit (("alse").toList) r
      else if c = 'n' then stripLit (("ull").toList) r
      else jsonNumRest (c :: r)
  | fuel + 1, .objStart, s =>
    match s with
    | [] => none
    | c :: r => if c = '}' then some r else jsonScan fuel .members (c :: r)
  | fuel + 1, .members, s =>
    match s with
    | [] => none
    | c :: r =>
      if c = '"' then
        match jsonStrRest r with
        | none => none
        | some r2 =>
          match skipWs r2 with
          | [] => none
          | c3 :: r3 =>
            if c3 = ':' then
              match jsonScan fuel .value (skipWs r3) with
              | none => none
              | some r4 =>
                match skipWs r4 with
                | [] => none
                | c5 :: r5 =>
                  if c5 = ',' then jsonScan fuel .members (skipWs r5)
                  else if c5 = '}' then some r5
                  else none
            else none
      else none
  | fuel + 1, .arrStart, s =>
    match s with
    | [] => none
    | c :: r => if c = ']' then some r else jsonScan fuel .elems (c :: r)
  | fuel + 1, .elems, s =>
    match jsonScan fuel .value s with
    | none => none
    | some r =>
      match skipWs r with
      | [] => none
      | c2 :: r2 =>
        if c2 = ',' then jsonScan fuel .elems (skipWs r2)
        else if c2 = ']' then some r2
        else none

/-- Model of Go `json.Valid`. -/
def jsonValid (s : List Char) : Bool :=
  match jsonScan (2 * s.length + 8) .value (skipWs s) with
  | some r => (skipWs r).isEmpty
  | none => false

/-- RE2 `\w`. -/
def wordChar (c : Char) : Bool :=
  isDigitChar c || (65 ≤ c.toNat && c.toNat ≤ 90) || (97 ≤ c.toNat && c.toNat ≤ 122) || c = '_'

/-- RE2 `\s` (`[\t\n\f\r ]`). -/
def reSpace (c : Char) : Bool :=
  c == ' ' || c == '\t' || c == '\n' || c == '\x0c' || c == '\r'

/-- Match of the primary pattern `TOOL_CALL:\s*(\w+)\s*\(` anchored at
the head of `s`; on success returns the tool name and the suffix just
after the opening parenthesis. -/
def tryPrimaryAt (s : List Char) : Option (List Char × List Char) :=
  if (("TOOL_CALL:").toList).isPrefixOf s then
    let r2 := (s.drop 10).dropWhile reSpace
    let name := r2.takeWhile wordChar
    if name = [] then none
    else
      match (r2.dropWhile wordChar).dropWhile reSpace with
      | '(' :: r5 => some (name, r5)
      | _ => none
  else none

/-- All primary-pattern matches, scanned left to right; as with Go's
`FindAllStringSubmatchIndex`, scanning resumes right after each match's
opening parenthesis. -/
def primaryScanAux : Nat → List Char → List (List Char × List Char)
  | 0, _ => []
  | fuel + 1, s =>
    match s with
    | [] => []
    | _ :: rest =>
      match tryPrimaryAt s with
      | some (name, afterParen) => (name, afterParen) :: primaryScanAux fuel afterParen
      | none => primaryScanAux fuel rest

/-- All primary-grammar matches in a response text. -/
def primaryScan (text : List Char) : List (List Char × List Char) :=
  primaryScanAux (text.length + 1) text

/-- `fmt.Sprintf("{\"input\": %q}", s)`, the debug wrapper for
non-JSON argument text. -/
def wrapInput (s : List Char) : List Char :=
  ("\x7b\"input\": ").toList ++ goQuote s ++ [Char.ofNat 125]

/-- Argument bytes emitted for cleaned text: verbatim when valid JSON,
otherwise wrapped. -/
def emitArg (cleaned : List Char) : List Char :=
  if jsonValid cleaned then cleaned else wrapInput cleaned

/-- The primary-pattern half of `DeepSeekProvider.ParseToolCalls`
(src/unnamed/part_003, lines 190-229): extract the argument span,
clean it, skip the match when the cleaned text is empty, validate or
wrap.  Results are (tool name, argument bytes) pairs. -/
def parsePrimaryCalls (text : List Char) : List (List Char × List Char) :=
  (primaryScan text).filterMap (fun p =>
    let cleaned := fixCommonJSONIssues (extractBody p.2)
    if cleaned = [] then none
    else some (p.1, emitArg cleaned))

/-- Match of the fallback pattern `Call\s+(\w+)\s+with\s+({[^}]*})`
anchored at the head of `s`; returns the name, the braced argument
text, and the suffix after the match. -/
def tryFallbackAt (s : List Char) : Option (List Char × List Char × List Char) :=
  if (("Call").toList).isPrefixOf s then
    let r1 := s.drop 4
    if r1.takeWhile reSpace = [] then none
    else
      let r2 := r1.dropWhile reSpace
      let name := r2.takeWhile wordChar
      if name = [] then none
      else
        let r3 := r2.dropWhile wordChar
        if r3.takeWhile reSpace = [] then none
        else
          match stripLit (("with").toList) (r3.dropWhile reSpace) with
          | none => none
          | some r4 =>
            if r4.takeWhile reSpace = [] then none
            else
              match r4.dropWhile reSpace with
              | '{' :: r6 =>
                let body := r6.takeWhile (fun c => c ≠ '}')
                match r6.drop body.length with
                | '}' :: r7 => some (name, '{' :: (body ++ [Char.ofNat 125]), r7)
                | _ => none
              | _ => none
  else none

/-- All fallback-pattern matches, scanned left to right, resuming after
each match. -/
def fallbackScanAux : Nat → List Char → List (List Char × List Char)
  | 0, _ => []
  | fuel + 1, s =>
    match s with
    | [] => []
    | _ :: rest =>
      match tryFallbackAt s with
      | some (name, arg, restAfter) => (name, arg) :: fallbackScanAux fuel restAfter
      | none => fallbackScanAux fuel rest

/-- The fallback half of `ParseToolCalls` (src/unnamed/part_003, lines
230-258). -/
def parseFallbackCalls (text : List Char) : List (List Char × List Char) :=
  (fallbackScanAux (text.length + 1) text).map (fun p => (p.1, emitArg p.2))

/-- `DeepSeekProvider.ParseToolCalls` (src/unnamed/part_003, lines
187-261): the primary grammar, falling back to the prose grammar only
when the primary grammar emitted nothing. -/
def parseToolCalls (text : List Char) : List (List Char × List Char) :=
  let primary := parsePrimaryCalls text
  if primary = [] then parseFallbackCalls text else primary

/-- `agent.Message` (src/unnamed/part_002, lines 209-212). -/
structure Message where
  role : List Char
  content : List Char
deriving DecidableEq, Repr

/-- `agent.ToolCall` (src/unnamed/part_002, lines 221-226); the `ID` and
`Function` fields duplicate information and play no role in the loop. -/
structure ToolCall where
  name : List Char
  input : List Char
deriving DecidableEq, Repr

/-- `agent.Response` (src/unnamed/part_002, lines 215-218). -/
structure Response where
  content : List Char
  toolCalls : List ToolCall
deriving DecidableEq, Repr

/-- The mutable state of `InteractiveAgent.Run`: the conversation, the
`readUserInput` flag, and the remaining user-input stream. -/
structure LoopState where
  conversation : List Message
  readUserInput : Bool
  inputs : List (List Char)
deriving DecidableEq, Repr

/-- Outcome of one iteration of the `Run` loop: halt (normal end of
input, or a non-recoverable LLM error), or continue with the new state,
recording the tool calls executed this iteration, their result texts,
and the model response (when the LLM call succeeded). -/
inductive StepOut where
  | halt (err : Option (List Char))
  | cont (s : LoopState) (executed : List ToolCall) (results : List (List Char))
      (resp : Option Response)
deriving DecidableEq, Repr

/-- `InteractiveAgent.isRecoverableError` (src/unnamed/part_002, lines
131-157). -/
def isRecoverableError (e : List Char) : Bool :=
  let low := lowerStr e
  [("quota").toList, ("rate limit").toList, ("429").toList, ("api key").toList,
   ("401").toList, ("403").toList, ("service unavailable").toList, ("502").toList,
   ("503").toList, ("504").toList, ("timeout").toList, ("temporary").toList].any
    (fun kw => containsSubstr low kw)

/-- The embedded-directive token the loop looks for in tool results. -/
def toolCallToken : List Char :=
  ("TOOL_CALL:").toList

/-- The user-role turn a tool result is appended as
(src/unnamed/part_002, lines 113-117). -/
def toolResultMsg (r : List Char) : Message :=
  ⟨("user").toList, ("Tool result: ").toList ++ r⟩

/-- The conversation after the read-user-input phase of one iteration. -/
def convWithInput (s : LoopState) : List Message :=
  if s.readUserInput then
    match s.inputs with
    | [] => s.conversation
    | i :: _ => s.conversation ++ [⟨("user").toList, i⟩]
  else s.conversation

/-- One iteration of `InteractiveAgent.Run` (src/unnamed/part_002,
lines 26-128).  The LLM provider is a function from the conversation to
a response or an error string, and the tool executor subsumes
`InteractiveAgent.executeTool` (registry lookup and execution, both of
whose failure branches yield `Error...` texts). -/
def stepRun (provider : List Message → Except (List Char) Response)
    (executor : ToolCall → List Char) (s : LoopState) : StepOut :=
  let read : Option (List Message × List (List Char)) :=
    if s.readUserInput then
      match s.inputs with
      | [] => none
      | i :: rest => some (s.conversation ++ [⟨("user").toList, i⟩], rest)
    else some (s.conversation, s.inputs)
  match read with
  | none => .halt none
  | some (conv1, inputs1) =>
    match provider conv1 with
    | .error e =>
      if isRecoverableError e then
        .cont ⟨conv1, true, inputs1.tail⟩ [] [] none
      else .halt (some ((("LLM error: ").toList) ++ e))
    | .ok resp =>
      let conv2 := conv1 ++ [⟨("assistant").toList, resp.content⟩]
      let results := resp.toolCalls.map executor
      if results.isEmpty then
        .cont ⟨conv2, true, inputs1⟩ resp.toolCalls results (some resp)
      else
        let conv3 := conv2 ++ results.map toolResultMsg
        let ru := results.foldl
          (fun acc r => if containsSubstr r toolCallToken then false else acc) false
        .cont ⟨conv3, ru, inputs1⟩ resp.toolCalls results (some resp)

/-- Run the loop for at most `n` iterations, accumulating every tool
call executed and every model response generated. -/
def runLoop (provider : List Message → Except (List Char) Response)
    (executor : ToolCall → List Char) : Nat → LoopState → List ToolCall × List Response
  | 0, _ => ([], [])
  | n + 1, s =>
    match stepRun provider executor s with
    | .halt _ => ([], [])
    | .cont s2 executed _ respOpt =>
      let (es, rs) := runLoop provider executor n s2
      (executed ++ es, respOpt.toList ++ rs)

/-- Scanner state named by the specification of the balanced argument
scan: nesting counter, in-string flag, escape flag. -/
structure ScanSt where
  paren : Nat
  inStr : Bool
  esc : Bool
deriving DecidableEq, Repr

/-- One character step of the scan, as the specification words it: an
escaped character is consumed without effect, a backslash escapes the
next character, an unescaped quote toggles the string state, and
parentheses adjust the nesting counter only outside strings. -/
def specStep (st : ScanSt) (c : Char) : ScanSt :=
  if st.esc then { st with esc := false }
  else if c = '\\' then { st with esc := true }
  else if c = '"' then { st with inStr := ! st.inStr }
  else if ¬ st.inStr ∧ c = '(' then { st with paren := st.paren + 1 }
  else if ¬ st.inStr ∧ c = ')' then { st with paren := st.paren - 1 }
  else st

/-- The offset of the first `)` processed outside a string, unescaped,
at which the nesting counter returns to zero — the specification's
description of where the argument span closes. -/
def specCloseIdx : List Char → ScanSt → Option Nat
  | [], _ => none
  | c :: rest, st =>
    if ¬ st.esc ∧ ¬ st.inStr ∧ c = ')' ∧ st.paren = 1 then some 0
    else (specCloseIdx rest (specStep st c)).map (· + 1)

/-- The per-candidate acceptance test the quantity resolution applies:
non-nil, parses, strictly positive. -/
def pickQty (c : GoVal) : Option Q :=
  if c = .null then none
  else
    match parseNumberField c (("quantity").toList) with
    | .ok q => if (natQ 0).blt q then some q else none
    | .error _ => none

/-- Claim-level description of quantity resolution: the first synonym
candidate that parses to a strictly positive value. -/
def firstPosQty (food : FoodItem) : Option Q :=
  ([food.quantity, food.amount, food.serving, food.count]).findSome? pickQty

/-- The per-candidate acceptance test the calorie resolution applies:
non-nil, parses, at least zero. -/
def pickCal (c : GoVal) : Option Q :=
  if c = .null then none
  else
    match parseNumberField c (("calories").toList) with
    | .ok v => if (natQ 0).ble v then some v else none
    | .error _ => none

/-- Claim-level description of calorie resolution: the first synonym
candidate that parses to a value at least zero. -/
def firstCal (food : FoodItem) : Option Q :=
  ([food.calories, food.cals, food.cal, food.energy]).findSome? pickCal

/-- Characters for which the argument-wrapping path is exact and
produces JSON-legal escapes: printable ASCII plus tab, newline,
carriage return. -/
def charOK (c : Char) : Bool :=
  (32 ≤ c.toNat && c.toNat ≤ 126) || c == '\t' || c == '\n' || c == '\r'

example : parseNumberField (.str ("2").toList) (("q").toList) = .ok (natQ 2) := by decide
example : parseNumberField (.str ("2.5").toList) (("q").toList) = .ok (mkQ 5 2) := by decide
example : parseNumberField (.str ("two").toList) (("q").toList) = .ok (natQ 2) := by decide
example : parseNumberField (.str ("half").toList) (("q").toList) = .ok (mkQ 1 2) := by decide
example : parseNumberField (.str ("1/2").toList) (("q").toList) = .ok (mkQ 1 2) := by decide
example : parseNumberField (.str ("2 large").toList) (("q").toList) = .ok (natQ 2) := by decide
example : parseNumberField (.str ("1.5 cups").toList) (("q").toList) = .ok (mkQ 3 2) := by decide
example : parseNumberField (.str ("").toList) (("q").toList)
    = .error (("q cannot be empty").toList) := by decide
example : parseNumberField .null (("q").toList) = .error (("q is required").toList) := by decide
example : parseNumberField (.str ("zero").toList) (("q").toList)
    = .error (("q must be a number, got: zero").toList) := by decide
example : parseNumberField (.num (natQ 2)) (("q").toList) = .ok (natQ 2) := by decide
example : parseNumberField (.str ("0 large").toList) (("q").toList)
    = .error (("q must be a number, got: 0 large").toList) := by decide

example : parseToolCalls (("TOOL_CALL: fitbit_log_meal(\x7b\"meal_type\":\"breakfast\",\"foods\":[\x7b\"name\":\"eggs\",\"quantity\":2,\"unit\":\"large\",\"calories\":140\x7d]\x7d)").toList)
    = [((("fitbit_log_meal").toList),
        (("\x7b\"meal_type\":\"breakfast\",\"foods\":[\x7b\"name\":\"eggs\",\"quantity\":2,\"unit\":\"large\",\"calories\":140\x7d]\x7d").toList))] := by
  decide

example : parseToolCalls (("TOOL_CALL: fitbit_login()").toList) = [] := by decide

example : parseToolCalls (("TOOL_CALL: f(\x7b\"a\": \"(x) \\\" b\"\x7d)").toList)
    = [((("f").toList), (("\x7b\"a\": \"(x) \\\" b\"\x7d").toList))] := by decide

example : parseToolCalls (("TOOL_CALL: f(not json)").toList)
    = [((("f").toList), (("\x7b\"input\": \"not json\"\x7d").toList))] := by decide

example : parseToolCalls (("TOOL_CALL: f(\x7b\x7d;)").toList)
    = [((("f").toList), (("\x7b\x7d").toList))] := by decide

example : parseToolCalls (("Call save_meal with \x7b\"a\":1\x7d").toList)
    = [((("save_meal").toList), (("\x7b\"a\":1\x7d").toList))] := by decide

example : extractJSONManually (("TOOL_CALL: f( 1 )").toList) 12 = ("1").toList := by decide

example : jsonValid (("\x7b\"a\": [1, -2.5e3, true, null, \"x\"]\x7d").toList) = true := by decide

example : jsonValid (("not json").toList) = false := by decide

example : jsonValid (("\x7b\"a\": 01\x7d").toList) = false := by decide

example : executeMeal
    { mealType := ("breakfast").toList,
      foods := [{ foodItem := ("eggs").toList, amount := .str ("two").toList }] }
    ⟨[], []⟩ (fun _ => 200)
    = .error (("error parsing food item 1 (eggs): calories must be specified").toList) := by
  decide

example : executeMeal
    { mealType := ("breakfast").toList,
      foods := [{ name := ("eggs").toList, quantity := .intv 2,
                  unit := ("large").toList, calories := .intv 140 }] }
    ⟨[], []⟩ (fun _ => 200) = .ok authRequiredMsg := by decide

example : (executeMeal
    { mealType := ("breakfast").toList,
      foods := [{ name := ("eggs").toList, quantity := .intv 2,
                  unit := ("large").toList, calories := .intv 140 }] }
    ⟨("tok").toList, ("u").toList⟩ (fun _ => 200)).isOk = true := by decide

example : executeMeal
    { mealType := ("breakfast").toList,
      foods := [{ name := ("eggs").toList, quantity := .intv 2,
                  unit := ("large").toList, calories := .intv 140 }] }
    ⟨("tok").toList, ("u").toList⟩ (fun _ => 401) = .ok authExpiredMsg := by decide

example : executeMeal
    { mealType := ("breakfast").toList,
      foods := [{ name := ("eggs").toList, quantity := .intv 2,
                  unit := ("large").toList, calories := .intv 140 }],
      totalCalories := .str ("440").toList }
    ⟨("tok").toList, ("u").toList⟩ (fun _ => 200)
    = .error (mismatchMsg (natQ 140) (natQ 440)) := by decide

/-- C5 counterexample: the claim asserts `parseNumber("zero")` succeeds
and returns 0; in the code the whole-word table value 0 is rejected by
the strictly-positive acceptance test in `parseNumberField`, so
`"zero"` fails with a not-a-number error. -/
theorem c5_zero_fails :
    parseNumberField (.str (("zero").toList)) (("quantity").toList)
        = .error (("quantity must be a number, got: zero").toList)
    ∧ parseNumberField (.str (("zero").toList)) (("quantity").toList) ≠ .ok (natQ 0) := by
  decide

/-- C5 (amended): for every word of the fixed word-number table other
than "zero", `parseNumberField` on that exact string succeeds with the
table value ("one"→1 … "ten"→10, "half"→0.5, "quarter"→0.25,
"third"→0.33, "couple"→2, "few"→3, "dozen"→12, "pair"→2, "single"→1),
for any field label; "zero" itself fails with an error naming the
field, because a text-extracted value is accepted only when strictly
positive. -/
theorem c5_word_table (f : List Char) :
    parseNumberField (.str (("one").toList)) f = .ok (natQ 1)
    ∧ parseNumberField (.str (("two").toList)) f = .ok (natQ 2)
    ∧ parseNumberField (.str (("three").toList)) f = .ok (natQ 3)
    ∧ parseNumberField (.str (("four").toList)) f = .ok (natQ 4)
    ∧ parseNumberField (.str (("five").toList)) f = .ok (natQ 5)
    ∧ parseNumberField (.str (("six").toList)) f = .ok (natQ 6)
    ∧ parseNumberField (.str (("seven").toList)) f = .ok (natQ 7)
    ∧ parseNumberField (.str (("eight").toList)) f = .ok (natQ 8)
    ∧ parseNumberField (.str (("nine").toList)) f = .ok (natQ 9)
    ∧ parseNumberField (.str (("ten").toList)) f = .ok (natQ 10)
    ∧ parseNumberField (.str (("half").toList)) f = .ok (mkQ 1 2)
    ∧ parseNumberField (.str (("quarter").toList)) f = .ok (mkQ 1 4)
    ∧ parseNumberField (.str (("third").toList)) f = .ok (mkQ 33 100)
    ∧ parseNumberField (.str (("couple").toList)) f = .ok (natQ 2)
    ∧ parseNumberField (.str (("few").toList)) f = .ok (natQ 3)
    ∧ parseNumberField (.str (("dozen").toList)) f = .ok (natQ 12)
    ∧ parseNumberField (.str (("pair").toList)) f = .ok (natQ 2)
    ∧ parseNumberField (.str (("single").toList)) f = .ok (natQ 1)
    ∧ parseNumberField (.str (("zero").toList)) f
        = .error (f ++ (" must be a number, got: ").toList ++ ("zero").toList) :=
  ⟨rfl, rfl, rfl, rfl, rfl, rfl, rfl, rfl, rfl, rfl, rfl, rfl, rfl, rfl, rfl, rfl, rfl,
    rfl, rfl⟩

/-- C6 counterexample: the claim asserts that for a string beginning
with an integer followed by trailing text the leading number is taken
and the rest ignored; on `"0 large"` the code extracts the leading 0
but then rejects it (extracted values must be strictly positive), so
parsing fails rather than returning 0. -/
theorem c6_zero_leading_fails :
    parseNumberField (.str (("0 large").toList)) (("quantity").toList)
        = .error (("quantity must be a number, got: 0 large").toList)
    ∧ parseNumberField (.str (("0 large").toList)) (("quantity").toList) ≠ .ok (natQ 0) := by
  decide

/-- C7: the collected food-item list is exactly the concatenation of
the `foods`, `toast`, `snacks`, `items`, `food_items` lists in that
order, its length is the sum of the five lengths, and — when the meal
type is valid so that execution reaches the check — an empty
concatenation makes `Execute` fail with the no-food-items error. -/
theorem c7_food_collection :
    (∀ input : LogMealInput,
      collectAllFoods input
          = input.foods ++ input.toast ++ input.snacks ++ input.items ++ input.foodItems
        ∧ (collectAllFoods input).length
          = input.foods.length + input.toast.length + input.snacks.length
            + input.items.length + input.foodItems.length)
    ∧ (∀ (input : LogMealInput) (env : FitbitEnv) (st : Nat → Nat),
        normalizeMealType input.mealType ≠ [] →
        collectAllFoods input = [] →
        executeMeal input env st
          = .error (("no food items found. Please provide at least one food item").toList)) := by
  constructor
  · intro input
    refine ⟨rfl, ?_⟩
    simp only [collectAllFoods, List.length_append]
  · intro input env st hmt hempty
    simp [executeMeal, hmt, hempty]

/-- C7 witness: a meal input with a valid meal type and no food items in
any of the five lists fails with the no-food-items error. -/
theorem c7_food_collection_witness :
    executeMeal { mealType := ("breakfast").toList } ⟨[], []⟩ (fun _ => 200)
      = .error (("no food items found. Please provide at least one food item").toList) :=
  c7_food_collection.2 { mealType := ("breakfast").toList } ⟨[], []⟩ (fun _ => 200)
    (by decide) (by decide)

lemma quantityScan_pos : ∀ l q, quantityScan l = .ok q → (natQ 0).blt q = true := by
  intro l
  induction l with
  | nil =>
    intro q h
    simp only [quantityScan] at h
    cases h
    decide
  | cons c rest ih =>
    intro q h
    simp only [quantityScan] at h
    by_cases hc : c = .null
    · rw [if_pos hc] at h
      exact ih q h
    · rw [if_neg hc] at h
      cases hp : parseNumberField c (("quantity").toList) with
      | ok q2 =>
        simp only [hp] at h
        by_cases hq2 : (natQ 0).blt q2 = true
        · rw [if_pos hq2] at h
          cases h
          exact hq2
        · rw [if_neg hq2] at h
          exact ih q h
      | error e =>
        simp only [hp] at h
        exact ih q h

lemma quantityScan_eq : ∀ l, quantityScan l = .ok ((l.findSome? pickQty).getD (natQ 1)) := by
  intro l
  induction l with
  | nil => rfl
  | cons c rest ih =>
    simp only [quantityScan, List.findSome?_cons, pickQty]
    by_cases hc : c = .null
    · simp [hc, ih]
    · simp only [if_neg hc]
      cases hp : parseNumberField c (("quantity").toList) with
      | ok q2 =>
        by_cases hq2 : (natQ 0).blt q2 <;> simp [hq2, ih]
      | error e => simp [ih]

/-- C10: quantity resolution never fails — it returns the first synonym
candidate (quantity, amount, serving, count) parsing to a strictly
positive value, or the default 1 when none does; consequently every
quantity it returns, and the quantity of every successfully parsed
food item, is strictly positive (a candidate parsing to exactly 0 is
skipped). -/
theorem c10_quantity_default :
    (∀ food : FoodItem, getAnyQuantity food = .ok ((firstPosQty food).getD (natQ 1)))
    ∧ (∀ (food : FoodItem) (q : Q), getAnyQuantity food = .ok q → (natQ 0).blt q = true)
    ∧ (∀ (food : FoodItem) (parsed : ParsedFoodItem),
        parseFoodItem food = .ok parsed → (natQ 0).blt parsed.quantity = true) := by
  refine ⟨fun food => quantityScan_eq _, fun food q h => quantityScan_pos _ q h, ?_⟩
  intro food parsed h
  simp only [parseFoodItem] at h
  by_cases hn : getAnyFoodName food = []
  · rw [if_pos hn] at h
    cases h
  · rw [if_neg hn] at h
    cases hq : getAnyQuantity food with
    | error e => rw [hq] at h; cases h
    | ok q =>
      rw [hq] at h
      cases hcal : getAnyCalories food with
      | error e => rw [hcal] at h; cases h
      | ok cal =>
        rw [hcal] at h
        cases h
        exact quantityScan_pos _ q hq

/-- C10 witness: a candidate that parses to exactly 0 is skipped in
favor of a later positive candidate, and parsed items carry positive
quantity. -/
theorem c10_quantity_default_witness :
    getAnyQuantity { quantity := .num (natQ 0), amount := .intv 3 } = .ok (natQ 3)
    ∧ (natQ 0).blt (natQ 3) = true := by
  constructor
  · have h := c10_quantity_default.1 { quantity := .num (natQ 0), amount := .intv 3 }
    rw [h]
    decide
  · exact c10_quantity_default.2.1 { quantity := .num (natQ 0), amount := .intv 3 } (natQ 3)
      (by decide)

lemma caloriesScan_eq : ∀ l, caloriesScan l
    = (match l.findSome? pickCal with
       | some v => Except.ok v
       | none => .error (("calories must be specified").toList)) := by
  intro l
  induction l with
  | nil => rfl
  | cons c rest ih =>
    simp only [caloriesScan, List.findSome?_cons, pickCal]
    by_cases hc : c = .null
    · simp [hc, ih]
    · simp only [if_neg hc]
      cases hp : parseNumberField c (("calories").toList) with
      | ok v =>
        by_cases hv : (natQ 0).ble v = true <;> simp [hv, ih]
      | error e => simp [ih]

lemma parseFoodItem_cal_err (food : FoodItem) (em : List Char)
    (hn : getAnyFoodName food ≠ []) (hcal : getAnyCalories food = .error em) :
    parseFoodItem food = .error em := by
  simp only [parseFoodItem, getAnyQuantity]
  rw [if_neg hn, quantityScan_eq]
  simp only [hcal]

lemma parseFoodsLoop_err : ∀ (pre : List FoodItem) (k : Nat) (f : FoodItem)
    (post : List FoodItem) (e : List Char),
    (∀ g ∈ pre, (parseFoodItem g).isOk = true) →
    parseFoodItem f = .error e →
    parseFoodsLoop k (pre ++ f :: post)
      = .error ((("error parsing food item ").toList ++ natRepr (k + pre.length + 1)
          ++ (" (").toList ++ getAnyFoodName f ++ ("): ").toList) ++ e) := by
  intro pre
  induction pre with
  | nil =>
    intro k f post e _ hf
    simp only [List.nil_append, parseFoodsLoop, hf, List.length_nil, Nat.add_zero]
  | cons g pre2 ih =>
    intro k f post e hpre hf
    have hg := hpre g (List.mem_cons_self ..)
    obtain ⟨p, hp⟩ : ∃ p, parseFoodItem g = .ok p := by
      cases hgp : parseFoodItem g with
      | ok p => exact ⟨p, rfl⟩
      | error e2 => rw [hgp] at hg; simp [Except.isOk, Except.toBool] at hg
    have ih2 := ih (k + 1) f post e (fun g2 hg2 => hpre g2 (List.mem_cons_of_mem _ hg2)) hf
    rw [show k + 1 + pre2.length + 1 = k + (pre2.length + 1) + 1 from by omega] at ih2
    simp only [List.cons_append, parseFoodsLoop, hp, List.append_eq, ih2, List.length_cons]

/-- C3: per-item calories are resolved as the first candidate among the
four synonym fields (calories, cals, cal, energy) that parses to a
value at least 0; when no candidate resolves, the whole normalization
fails with an error citing the item's one-based position and
best-effort name — in particular `{food_item:"eggs", amount:"two"}`
with no calorie field fails even though name and quantity are
present. -/
theorem c3_calories_resolution :
    (∀ food : FoodItem,
      getAnyCalories food
        = match firstCal food with
          | some v => .ok v
          | none => .error (("calories must be specified").toList))
    ∧ (∀ (input : LogMealInput) (env : FitbitEnv) (st : Nat → Nat)
        (pre : List FoodItem) (f : FoodItem) (post : List FoodItem),
        collectAllFoods input = pre ++ f :: post →
        (∀ g ∈ pre, (parseFoodItem g).isOk = true) →
        normalizeMealType input.mealType ≠ [] →
        getAnyFoodName f ≠ [] →
        getAnyCalories f = .error (("calories must be specified").toList) →
        executeMeal input env st
          = .error ((("error parsing food item ").toList ++ natRepr (pre.length + 1)
              ++ (" (").toList ++ getAnyFoodName f ++ ("): ").toList)
              ++ ("calories must be specified").toList))
    ∧ (∀ (env : FitbitEnv) (st : Nat → Nat),
        executeMeal
          { mealType := ("breakfast").toList,
            foods := [{ foodItem := ("eggs").toList, amount := .str (("two").toList) }] }
          env st
          = .error (("error parsing food item 1 (eggs): calories must be specified").toList)) := by
  have hmain : ∀ (input : LogMealInput) (env : FitbitEnv) (st : Nat → Nat)
      (pre : List FoodItem) (f : FoodItem) (post : List FoodItem),
      collectAllFoods input = pre ++ f :: post →
      (∀ g ∈ pre, (parseFoodItem g).isOk = true) →
      normalizeMealType input.mealType ≠ [] →
      getAnyFoodName f ≠ [] →
      getAnyCalories f = .error (("calories must be specified").toList) →
      executeMeal input env st
        = .error ((("error parsing food item ").toList ++ natRepr (pre.length + 1)
            ++ (" (").toList ++ getAnyFoodName f ++ ("): ").toList)
            ++ ("calories must be specified").toList) := by
    intro input env st pre f post hcollect hpre hmt hn hcal
    have hitem := parseFoodItem_cal_err f _ hn hcal
    have hloop := parseFoodsLoop_err pre 0 f post _ hpre hitem
    rw [show 0 + pre.length + 1 = pre.length + 1 from by omega] at hloop
    have hne : collectAllFoods input ≠ [] := by
      rw [hcollect]
      simp
    simp only [executeMeal]
    rw [if_neg hmt, if_neg hne, hcollect, hloop]
  refine ⟨fun food => caloriesScan_eq _, hmain, ?_⟩
  intro env st
  have h := hmain
    { mealType := ("breakfast").toList,
      foods := [{ foodItem := ("eggs").toList, amount := .str (("two").toList) }] }
    env st []
    { foodItem := ("eggs").toList, amount := .str (("two").toList) } []
    (by decide) (by intro g hg; cases hg) (by decide) (by decide) (by decide)
  rw [h]
  decide

/-- C3 witness: the eggs-with-quantity-but-no-calories input fails,
naming item 1 and "eggs". -/
theorem c3_calories_resolution_witness :
    executeMeal
      { mealType := ("breakfast").toList,
        foods := [{ foodItem := ("eggs").toList, amount := .str (("two").toList) }] }
      ⟨[], []⟩ (fun _ => 200)
      = .error (("error parsing food item 1 (eggs): calories must be specified").toList) :=
  c3_calories_resolution.2.2 ⟨[], []⟩ (fun _ => 200)

lemma failed_log_ne_mismatch (e : List Char) (t ex : Q) :
    (("failed to log meal to Fitbit: ").toList ++ e) ≠ mismatchMsg t ex := by
  intro h
  have h2 := congrArg List.head? h
  simp [mismatchMsg] at h2

/-- C4 counterexample: the claim asserts the mismatch failure occurs
exactly when |computed − declared| exceeds 50 whenever an expected
total is declared; with a declared expected total of 0 the check is
skipped entirely (the code requires the parsed expected total to be
strictly positive), so a meal of 1000 computed calories succeeds
despite a difference of 1000. -/
theorem c4_zero_expected_skips_check :
    (executeMeal
      { mealType := ("breakfast").toList,
        foods := [{ name := ("eggs").toList, quantity := .intv 1,
                    unit := ("large").toList, calories := .intv 1000 }],
        totalCalories := .num (natQ 0) }
      ⟨("tok").toList, ("u").toList⟩ (fun _ => 200)).isOk = true
    ∧ parseNumberField (GoVal.num (natQ 0)) (("total_calories").toList) = .ok (natQ 0)
    ∧ (intQ 50).blt ((natQ 1000).sub (natQ 0)) = true := by
  decide

/-- C4 (amended): when the declared expected total parses to a strictly
positive value and execution reaches the cross-check (valid meal type,
at least one item, all items parsed, authenticated), meal logging fails
with the calorie-mismatch error exactly when the difference between
computed and expected totals is below −50 or above 50; a difference of
absolute value at most 50 never produces the mismatch error. -/
theorem c4_total_cross_check :
    ∀ (input : LogMealInput) (env : FitbitEnv) (st : Nat → Nat)
      (parsed : List ParsedFoodItem) (expected : Q),
      normalizeMealType input.mealType ≠ [] →
      collectAllFoods input ≠ [] →
      parseFoodsLoop 0 (collectAllFoods input) = .ok parsed →
      isAuthenticated env = true →
      parseNumberField input.totalCalories (("total_calories").toList) = .ok expected →
      (natQ 0).blt expected = true →
      (executeMeal input env st = .error (mismatchMsg (sumCalories parsed) expected)
        ↔ (((sumCalories parsed).sub expected).blt (intQ (-50))
            || (intQ 50).blt ((sumCalories parsed).sub expected)) = true) := by
  intro input env st parsed expected hmt hne hparse hauth hexp hpos
  have hnn : input.totalCalories ≠ .null := by
    intro h
    rw [h] at hexp
    simp [parseNumberField] at hexp
  simp only [executeMeal]
  rw [if_neg hmt, if_neg hne]
  simp only [hparse]
  rw [if_neg (by simp [hauth] : ¬ (¬ isAuthenticated env = true))]
  rw [if_pos hnn]
  simp only [hexp]
  rw [if_pos hpos]
  by_cases hcond : ((sumCalories parsed).sub expected).blt (intQ (-50)) = true
      ∨ (intQ 50).blt ((sumCalories parsed).sub expected) = true
  · rw [if_pos hcond]
    simp only [Bool.or_eq_true]
    exact ⟨fun _ => hcond, fun _ => trivial⟩
  · rw [if_neg hcond]
    simp only [Bool.or_eq_true]
    constructor
    · intro h
      exfalso
      cases hlog : logMealToFitbit env st parsed with
      | error e =>
        simp only [hlog] at h
        split at h
        · cases h
        · injection h with h2
          exact failed_log_ne_mismatch e _ _ h2
      | ok u =>
        simp only [hlog] at h
        split at h <;> cases h
    · intro h
      exact absurd h hcond

/-- C4 witness: a declared expected total of 440 against a computed 140
(difference 300 > 50) fails with the calorie-mismatch error. -/
theorem c4_total_cross_check_witness :
    executeMeal
      { mealType := ("breakfast").toList,
        foods := [{ name := ("eggs").toList, quantity := .intv 2,
                    unit := ("large").toList, calories := .intv 140 }],
        totalCalories := .str (("440").toList) }
      ⟨("tok").toList, ("u").toList⟩ (fun _ => 200)
      = .error (mismatchMsg (natQ 140) (natQ 440)) := by
  have h := (c4_total_cross_check
    { mealType := ("breakfast").toList,
      foods := [{ name := ("eggs").toList, quantity := .intv 2,
                  unit := ("large").toList, calories := .intv 140 }],
      totalCalories := .str (("440").toList) }
    ⟨("tok").toList, ("u").toList⟩ (fun _ => 200)
    [⟨("eggs").toList, natQ 2, ("large").toList, natQ 140⟩] (natQ 440)
    (by decide) (by decide) (by decide) (by decide) (by decide) (by decide)).mpr (by decide)
  rw [show mismatchMsg (sumCalories [⟨("eggs").toList, natQ 2, ("large").toList, natQ 140⟩])
      (natQ 440) = mismatchMsg (natQ 140) (natQ 440) from by decide] at h
  exact h

/-- C9: a 401 from the remote logging call produces the distinguished
unauthorized error (whose text mentions 401); through `Execute` it
takes the re-authentication path, returning the suggestion message that
embeds `TOOL_CALL: fitbit_login({})`; any other non-2xx status produces
the generic per-food HTTP error, and — provided that error text does
not itself contain "401" or "unauthorized" — `Execute` fails with the
generic logging error instead of suggesting re-authentication. -/
theorem c9_unauthorized_distinguished :
    (∀ (env : FitbitEnv) (st : Nat → Nat) (f : ParsedFoodItem) (fs : List ParsedFoodItem),
      env.accessToken ≠ [] → env.userID ≠ [] → st 0 = 401 →
      logMealToFitbit env st (f :: fs)
        = .error (("unauthorized: access token may be expired (401)").toList))
    ∧ containsSubstr (("unauthorized: access token may be expired (401)").toList)
        (("401").toList) = true
    ∧ (∀ (input : LogMealInput) (env : FitbitEnv) (st : Nat → Nat)
        (parsed : List ParsedFoodItem),
        normalizeMealType input.mealType ≠ [] →
        collectAllFoods input ≠ [] →
        parseFoodsLoop 0 (collectAllFoods input) = .ok parsed →
        env.accessToken ≠ [] → env.userID ≠ [] →
        input.totalCalories = .null →
        parsed ≠ [] →
        st 0 = 401 →
        executeMeal input env st = .ok authExpiredMsg)
    ∧ containsSubstr authExpiredMsg (("TOOL_CALL: fitbit_login(\x7b\x7d)").toList) = true
    ∧ (∀ (env : FitbitEnv) (st : Nat → Nat) (f : ParsedFoodItem) (fs : List ParsedFoodItem)
        (s : Nat),
        env.accessToken ≠ [] → env.userID ≠ [] → st 0 = s → s ≠ 401 → (s < 200 ∨ 300 ≤ s) →
        logMealToFitbit env st (f :: fs)
          = .error (("failed to log ").toList ++ f.name ++ (": HTTP ").toList ++ natRepr s))
    ∧ (∀ (input : LogMealInput) (env : FitbitEnv) (st : Nat → Nat)
        (parsed : List ParsedFoodItem) (e : List Char),
        normalizeMealType input.mealType ≠ [] →
        collectAllFoods input ≠ [] →
        parseFoodsLoop 0 (collectAllFoods input) = .ok parsed →
        env.accessToken ≠ [] →
        input.totalCalories = .null →
        logMealToFitbit env st parsed = .error e →
        containsSubstr e (("401").toList) = false →
        containsSubstr e (("unauthorized").toList) = false →
        executeMeal input env st
          = .error (("failed to log meal to Fitbit: ").toList ++ e)) := by
  have h401 : ∀ (env : FitbitEnv) (st : Nat → Nat) (f : ParsedFoodItem)
      (fs : List ParsedFoodItem),
      env.accessToken ≠ [] → env.userID ≠ [] → st 0 = 401 →
      logMealToFitbit env st (f :: fs)
        = .error (("unauthorized: access token may be expired (401)").toList) := by
    intro env st f fs htok huser hst
    simp only [logMealToFitbit]
    rw [if_neg htok, if_neg huser]
    simp [logFoodsLoop, hst]
  have hgeneric : ∀ (input : LogMealInput) (env : FitbitEnv) (st : Nat → Nat)
      (parsed : List ParsedFoodItem) (e : List Char),
      normalizeMealType input.mealType ≠ [] →
      collectAllFoods input ≠ [] →
      parseFoodsLoop 0 (collectAllFoods input) = .ok parsed →
      env.accessToken ≠ [] →
      input.totalCalories = .null →
      logMealToFitbit env st parsed = .error e →
      containsSubstr e (("401").toList) = false →
      containsSubstr e (("unauthorized").toList) = false →
      executeMeal input env st
        = .error (("failed to log meal to Fitbit: ").toList ++ e) := by
    intro input env st parsed e hmt hne hparse htok hnull hlog hc1 hc2
    have hauth : isAuthenticated env = true := by
      simp [isAuthenticated, htok]
    simp only [executeMeal]
    rw [if_neg hmt, if_neg hne]
    simp only [hparse]
    rw [if_neg (by simp [hauth] : ¬ (¬ isAuthenticated env = true))]
    rw [if_neg (by simp [hnull] : ¬ input.totalCalories ≠ GoVal.null)]
    have hc1b : containsSubstr e (['4', '0', '1']) = false := hc1
    have hc2b : containsSubstr e
      (['u', 'n', 'a', 'u', 't', 'h', 'o', 'r', 'i', 'z', 'e', 'd']) = false := hc2
    simp only [hlog]
    rw [if_neg (by simp [hc1b, hc2b])]
  refine ⟨h401, by decide, ?_, by decide, ?_, hgeneric⟩
  · intro input env st parsed hmt hne hparse htok huser hnull hpne hst
    have hauth : isAuthenticated env = true := by
      simp [isAuthenticated, htok]
    obtain ⟨f, fs, rfl⟩ : ∃ f fs, parsed = f :: fs := by
      cases parsed with
      | nil => exact absurd rfl hpne
      | cons f fs => exact ⟨f, fs, rfl⟩
    have hlog := h401 env st f fs htok huser hst
    simp only [executeMeal]
    rw [if_neg hmt, if_neg hne]
    simp only [hparse]
    rw [if_neg (by simp [hauth] : ¬ (¬ isAuthenticated env = true))]
    rw [if_neg (by simp [hnull] : ¬ input.totalCalories ≠ GoVal.null)]
    simp only [hlog]
    rw [if_pos (by decide)]
  · intro env st f fs s htok huser hst hs401 hrange
    simp only [logMealToFitbit]
    rw [if_neg htok, if_neg huser]
    simp only [logFoodsLoop, hst]
    rw [if_neg hs401, if_pos (by omega : s < 200 ∨ 300 ≤ s)]

/-- C9 witness: with one parsed food named eggs, status 401 yields the
re-authentication suggestion while status 500 yields the generic
logging failure naming the status. -/
theorem c9_unauthorized_distinguished_witness :
    executeMeal
      { mealType := ("breakfast").toList,
        foods := [{ name := ("eggs").toList, quantity := .intv 2,
                    unit := ("large").toList, calories := .intv 140 }] }
      ⟨("tok").toList, ("u").toList⟩ (fun _ => 401) = .ok authExpiredMsg
    ∧ executeMeal
      { mealType := ("breakfast").toList,
        foods := [{ name := ("eggs").toList, quantity := .intv 2,
                    unit := ("large").toList, calories := .intv 140 }] }
      ⟨("tok").toList, ("u").toList⟩ (fun _ => 500)
      = .error (("failed to log meal to Fitbit: failed to log eggs: HTTP 500").toList) := by
  constructor
  · exact c9_unauthorized_distinguished.2.2.1
      { mealType := ("breakfast").toList,
        foods := [{ name := ("eggs").toList, quantity := .intv 2,
                    unit := ("large").toList, calories := .intv 140 }] }
      ⟨("tok").toList, ("u").toList⟩ (fun _ => 401)
      [⟨("eggs").toList, natQ 2, ("large").toList, natQ 140⟩]
      (by decide) (by decide) (by decide) (by decide) (by decide) (by decide) (by decide) rfl
  · have h := c9_unauthorized_distinguished.2.2.2.2.2
      { mealType := ("breakfast").toList,
        foods := [{ name := ("eggs").toList, quantity := .intv 2,
                    unit := ("large").toList, calories := .intv 140 }] }
      ⟨("tok").toList, ("u").toList⟩ (fun _ => 500)
      [⟨("eggs").toList, natQ 2, ("large").toList, natQ 140⟩]
      (("failed to log eggs: HTTP 500").toList)
      (by decide) (by decide) (by decide) (by decide) (by decide) (by decide)
      (by decide) (by decide)
    rw [h]
    decide

lemma extractScan_eq_spec (s : List Char) : ∀ pc inS esc,
    extractScan s pc inS esc = specCloseIdx s ⟨pc, inS, esc⟩ := by
  induction s with
  | nil => intro pc inS esc; rfl
  | cons c rest ih =>
    intro pc inS esc
    cases esc <;> cases inS <;>
      by_cases hb : c = '\\' <;> by_cases hq : c = '"' <;>
      by_cases hop : c = '(' <;> by_cases hcl : c = ')' <;>
      by_cases hpc : pc = 1 <;>
      simp_all [extractScan, specCloseIdx, specStep]

/-- C1 counterexample: the claim asserts the extracted argument text is
exactly the substring between the parentheses; for `TOOL_CALL: f( 1 )`
the balanced close sits at offset 3 after the opening parenthesis, the
substring between the parentheses is `" 1 "`, yet the extractor returns
the whitespace-trimmed `"1"`. -/
theorem c1_extract_trims :
    extractJSONManually (("TOOL_CALL: f( 1 )").toList) 12 = ("1").toList
    ∧ specCloseIdx ((" 1 )").toList) ⟨1, false, false⟩ = some 3
    ∧ List.take 3 ((" 1 )").toList) = (" 1 ").toList
    ∧ ("1").toList ≠ (" 1 ").toList := by
  decide

/-- C1 (amended): for a match whose opening parenthesis sits at
position `p`, the extracted argument text is the whitespace-trimmed
substring between that parenthesis and the closing parenthesis at
which the nesting counter returns to zero (parentheses inside strings
ignored, unescaped quotes toggling the string state, backslash
escaping the next character); when no such close exists it is the
whitespace-trimmed remainder.  In particular a JSON argument with
parentheses and an escaped quote inside a string value does not
terminate early. -/
theorem c1_balanced_extraction :
    (∀ (text : List Char) (p : Nat) (h1 : p < text.length),
      text.get ⟨p, h1⟩ = '(' →
      extractJSONManually text p
        = match specCloseIdx (text.drop (p + 1)) ⟨1, false, false⟩ with
          | some n => trimSpace ((text.drop (p + 1)).take n)
          | none => trimSpace (text.drop (p + 1)))
    ∧ specCloseIdx (("\x7b\"a\": \"(x) \\\" b\"\x7d)").toList) ⟨1, false, false⟩ = some 17
    ∧ extractJSONManually (("TOOL_CALL: f(\x7b\"a\": \"(x) \\\" b\"\x7d)").toList) 12
        = ("\x7b\"a\": \"(x) \\\" b\"\x7d").toList := by
  refine ⟨?_, by decide, by decide⟩
  intro text p h1 hpar
  simp only [extractJSONManually]
  rw [dif_pos h1, if_pos hpar]
  simp only [extractBody, extractScan_eq_spec]

/-- C1 witness: the characterization applied at the opening parenthesis
of a concrete tool call. -/
theorem c1_balanced_extraction_witness :
    extractJSONManually (("TOOL_CALL: f(\x7b\x7d)").toList) 12
      = match specCloseIdx ((("TOOL_CALL: f(\x7b\x7d)").toList).drop (12 + 1))
          ⟨1, false, false⟩ with
        | some n => trimSpace (((("TOOL_CALL: f(\x7b\x7d)").toList).drop (12 + 1)).take n)
        | none => trimSpace ((("TOOL_CALL: f(\x7b\x7d)").toList).drop (12 + 1)) :=
  c1_balanced_extraction.1 (("TOOL_CALL: f(\x7b\x7d)").toList) 12 (by decide) (by decide)

lemma isDigit_toNat (c : Char) (h : isDigitChar c = true) : 48 ≤ c.toNat ∧ c.toNat ≤ 57 := by
  simpa [isDigitChar, Bool.and_eq_true, decide_eq_true_eq] using h

lemma toLowerChar_digit (c : Char) (h : isDigitChar c = true) : toLowerChar c = c := by
  have h2 := isDigit_toNat c h
  simp only [toLowerChar]
  rw [if_neg]
  omega

lemma lowerStr_digits (a : List Char) (h : ∀ c ∈ a, isDigitChar c = true) : lowerStr a = a := by
  induction a with
  | nil => rfl
  | cons c a2 ih =>
    simp only [lowerStr, List.map_cons]
    rw [toLowerChar_digit c (h c (List.mem_cons_self ..))]
    have := ih (fun c2 hc2 => h c2 (List.mem_cons_of_mem _ hc2))
    simp only [lowerStr] at this
    rw [this]

lemma digit_not_space (c : Char) (h : isDigitChar c = true) : isSpaceChar c = false := by
  cases hs : isSpaceChar c with
  | false => rfl
  | true =>
    exfalso
    have h2 := isDigit_toNat c h
    simp only [isSpaceChar, Bool.or_eq_true, beq_iff_eq] at hs
    rcases hs with ((((hs | hs) | hs) | hs) | hs) | hs <;>
      (subst hs; exact absurd h2 (by decide))

lemma takeDrop_split (p : Char → Bool) : ∀ (a r : List Char),
    (∀ c ∈ a, p c = true) → (∀ c, r.head? = some c → p c = false) →
    (a ++ r).takeWhile p = a ∧ (a ++ r).dropWhile p = r := by
  intro a
  induction a with
  | nil =>
    intro r _ hr
    cases r with
    | nil => exact ⟨rfl, rfl⟩
    | cons c r2 =>
      have := hr c rfl
      simp [List.takeWhile, List.dropWhile, this]
  | cons c a2 ih =>
    intro r ha hr
    have hc := ha c (List.mem_cons_self ..)
    have ih2 := ih r (fun c2 hc2 => ha c2 (List.mem_cons_of_mem _ hc2)) hr
    simp [List.takeWhile, List.dropWhile, hc, ih2.1, ih2.2]

lemma trimRight_append (x y : List Char) (hx : x ≠ [])
    (hlast : ∀ c, x.getLast? = some c → isSpaceChar c = false) :
    trimRightSpace (x ++ y) = x ++ trimRightSpace y := by
  obtain ⟨c, hc⟩ : ∃ c, x.getLast? = some c := by
    cases hxl : x.getLast? with
    | none => exact absurd (List.getLast?_eq_none_iff.mp hxl) hx
    | some c => exact ⟨c, rfl⟩
  have hcx : isSpaceChar c = false := hlast c hc
  have hrevx : x.reverse.dropWhile isSpaceChar = x.reverse := by
    cases hxr : x.reverse with
    | nil => simp
    | cons d rest =>
      have hd : d = c := by
        have h1 : x.reverse.head? = some d := by rw [hxr]; rfl
        rw [List.head?_reverse] at h1
        rw [hc] at h1
        exact (Option.some_inj.mp h1).symm
      subst hd
      simp [List.dropWhile, hcx]
  simp only [trimRightSpace, List.reverse_append, List.dropWhile_append, hrevx]
  by_cases hemp : (y.reverse.dropWhile isSpaceChar).isEmpty = true
  · rw [if_pos hemp]
    have : y.reverse.dropWhile isSpaceChar = [] := by
      simpa [List.isEmpty_iff] using hemp
    simp [this, hrevx]
  · rw [if_neg hemp]
    simp

lemma trimRightSpace_isPrefix (l : List Char) : trimRightSpace l <+: l := by
  have h1 : l.reverse.dropWhile isSpaceChar <:+ l.reverse := List.dropWhile_suffix _
  have h2 := h1.reverse
  simpa [trimRightSpace] using h2

lemma head?_trimRight (l : List Char) (h : trimRightSpace l ≠ []) :
    (trimRightSpace l).head? = l.head? := by
  obtain ⟨k, hk⟩ := trimRightSpace_isPrefix l
  cases htr : trimRightSpace l with
  | nil => exact absurd htr h
  | cons c rest =>
    rw [htr] at hk
    rw [← hk]
    rfl

lemma lookup_none_table (t : List Char) : ∀ (tab : List (List Char × Q)),
    (∀ p ∈ tab, t ≠ p.1) → List.lookup t tab = none := by
  intro tab
  induction tab with
  | nil => intro _; rfl
  | cons p rest ih =>
    intro h
    have hne : (t == p.1) = false :=
      beq_eq_false_iff_ne.mpr (h p (List.mem_cons_self ..))
    simp only [List.lookup, hne]
    exact ih (fun q hq => h q (List.mem_cons_of_mem _ hq))

lemma lookup_slash_none (t : List Char) (h : ('/' : Char) ∈ t) :
    List.lookup t wordNumberTable = none := by
  apply lookup_none_table
  intro p hp heq
  rw [heq] at h
  fin_cases hp <;> exact absurd h (by decide)

lemma lookup_digit_head_none (c : Char) (r : List Char) (hd : isDigitChar c = true) :
    List.lookup (c :: r) wordNumberTable = none := by
  apply lookup_none_table
  intro p hp heq
  fin_cases hp <;> simp_all <;> exact absurd hd (by decide)

lemma trim_lower_lead (x rest : List Char) (hx : x ≠ [])
    (hhead : ∀ c, x.head? = some c → isSpaceChar c = false)
    (hlast : ∀ c, x.getLast? = some c → isSpaceChar c = false)
    (hfix : lowerStr x = x) :
    trimSpace (lowerStr (x ++ rest)) = x ++ trimRightSpace (lowerStr rest) := by
  have hlow : lowerStr (x ++ rest) = x ++ lowerStr rest := by
    simp only [lowerStr, List.map_append]
    simp only [lowerStr] at hfix
    rw [hfix]
  rw [hlow]
  obtain ⟨c0, x2, rfl⟩ : ∃ c0 x2, x = c0 :: x2 := by
    cases x with
    | nil => exact absurd rfl hx
    | cons c0 x2 => exact ⟨c0, x2, rfl⟩
  have hc0 : isSpaceChar c0 = false := hhead c0 rfl
  simp only [trimSpace, trimLeftSpace, List.cons_append, List.dropWhile, hc0]
  exact trimRight_append (c0 :: x2) (lowerStr rest) (by simp) hlast

lemma extractNumber_fraction (a b rest : List Char)
    (ha : a ≠ []) (had : ∀ c ∈ a, isDigitChar c = true)
    (hb : b ≠ []) (hbd : ∀ c ∈ b, isDigitChar c = true)
    (hbz : digitsToNat b ≠ 0)
    (hrest : ∀ c, rest.head? = some c → isDigitChar (toLowerChar c) = false) :
    extractNumberFromText (a ++ '/' :: (b ++ rest))
      = (natQ (digitsToNat a)).div (natQ (digitsToNat b)) := by
  have hx : a ++ '/' :: (b ++ rest) = (a ++ '/' :: b) ++ rest := by
    simp
  have hfix : lowerStr (a ++ '/' :: b) = a ++ '/' :: b := by
    simp only [lowerStr, List.map_append, List.map_cons]
    rw [show toLowerChar '/' = '/' from by decide]
    have h1 := lowerStr_digits a had
    have h2 := lowerStr_digits b hbd
    simp only [lowerStr] at h1 h2
    rw [h1, h2]
  obtain ⟨c0, a2, rfl⟩ : ∃ c0 a2, a = c0 :: a2 := by
    cases a with
    | nil => exact absurd rfl ha
    | cons c0 a2 => exact ⟨c0, a2, rfl⟩
  have hc0d : isDigitChar c0 = true := had c0 (List.mem_cons_self ..)
  have hnorm : trimSpace (lowerStr ((c0 :: a2) ++ '/' :: (b ++ rest)))
      = (c0 :: a2) ++ '/' :: (b ++ trimRightSpace (lowerStr rest)) := by
    rw [hx, trim_lower_lead ((c0 :: a2) ++ '/' :: b) rest (by simp) ?_ ?_ hfix]
    · simp
    · intro c hc
      simp only [List.cons_append, List.head?] at hc
      cases hc
      exact digit_not_space c0 hc0d
    · intro c hc
      rw [List.getLast?_append_of_ne_nil _ (by simp : '/' :: b ≠ [])] at hc
      have hcb : c ∈ '/' :: b := List.mem_of_mem_getLast? hc
      have hbl : ('/' :: b).getLast? = b.getLast? := by
        cases b with
        | nil => exact absurd rfl hb
        | cons b0 b2 => rfl
      rw [hbl] at hc
      exact digit_not_space c (hbd c (List.mem_of_mem_getLast? hc))
  set rest2 := trimRightSpace (lowerStr rest) with hrest2
  have hrest2head : ∀ c, rest2.head? = some c → isDigitChar c = false := by
    intro c hc
    have hne : rest2 ≠ [] := by
      intro hnil
      rw [hnil] at hc
      cases hc
    rw [hrest2, head?_trimRight _ (hrest2 ▸ hne)] at hc
    cases rest with
    | nil => cases hc
    | cons r0 rrest =>
      simp only [lowerStr, List.map_cons, List.head?] at hc
      cases hc
      exact hrest r0 rfl
  have htake := takeDrop_split isDigitChar (c0 :: a2) ('/' :: (b ++ rest2)) had
    (by
      intro c hc
      simp only [List.head?, Option.some.injEq] at hc
      rw [← hc]
      decide)
  have htakeb := takeDrop_split isDigitChar b rest2 hbd hrest2head
  simp only [List.cons_append] at htake hnorm
  simp only [extractNumberFromText, hnorm, takeDigits, dropDigits, List.cons_append,
    htake.1, htake.2]
  rw [lookup_digit_head_none c0 _ hc0d]
  simp only [htakeb.1]
  rw [if_pos ⟨hb, hbz⟩]

lemma extractNumber_leading_int (a rest : List Char)
    (ha : a ≠ []) (had : ∀ c ∈ a, isDigitChar c = true)
    (hrest : ∀ c, rest.head? = some c →
      isDigitChar (toLowerChar c) = false ∧ toLowerChar c ≠ '.' ∧ toLowerChar c ≠ '/') :
    extractNumberFromText (a ++ rest) = natQ (digitsToNat a) := by
  obtain ⟨c0, a2, rfl⟩ : ∃ c0 a2, a = c0 :: a2 := by
    cases a with
    | nil => exact absurd rfl ha
    | cons c0 a2 => exact ⟨c0, a2, rfl⟩
  have hc0d : isDigitChar c0 = true := had c0 (List.mem_cons_self ..)
  have hfix : lowerStr (c0 :: a2) = c0 :: a2 := lowerStr_digits _ had
  have hnorm0 : trimSpace (lowerStr ((c0 :: a2) ++ rest))
      = (c0 :: a2) ++ trimRightSpace (lowerStr rest) := by
    refine trim_lower_lead (c0 :: a2) rest (by simp) ?_ ?_ hfix
    · intro c hc
      simp only [List.head?, Option.some.injEq] at hc
      rw [← hc]
      exact digit_not_space c0 hc0d
    · intro c hc
      exact digit_not_space c (had c (List.mem_of_mem_getLast? hc))
  have hr2head : ∀ c, (trimRightSpace (lowerStr rest)).head? = some c →
      isDigitChar c = false ∧ c ≠ '.' ∧ c ≠ '/' := by
    intro c hc
    have hne : trimRightSpace (lowerStr rest) ≠ [] := by
      intro hnil
      rw [hnil] at hc
      cases hc
    rw [head?_trimRight _ hne] at hc
    cases rest with
    | nil => cases hc
    | cons r0 rrest =>
      simp only [lowerStr, List.map_cons, List.head?, Option.some.injEq] at hc
      rw [← hc]
      exact hrest r0 rfl
  rcases h2 : trimRightSpace (lowerStr rest) with _ | ⟨r0, r2⟩
  · rw [h2] at hnorm0
    have htake := takeDrop_split isDigitChar (c0 :: a2) [] had (fun c hc => by cases hc)
    simp only [List.cons_append] at htake hnorm0
    simp only [extractNumberFromText, hnorm0, takeDigits, dropDigits, List.cons_append,
      htake.1, htake.2]
    rw [lookup_digit_head_none c0 _ hc0d]
    simp only [leadingDecimalValue, hc0d, if_pos, takeDigits, dropDigits, htake.1, htake.2]
  · rw [h2] at hnorm0 hr2head
    have hr0 := hr2head r0 rfl
    have htake := takeDrop_split isDigitChar (c0 :: a2) (r0 :: r2) had
      (by
        intro c hc
        simp only [List.head?, Option.some.injEq] at hc
        rw [← hc]
        exact hr0.1)
    simp only [List.cons_append] at htake hnorm0
    have hlook : List.lookup (c0 :: (a2 ++ r0 :: r2)) wordNumberTable = none :=
      lookup_digit_head_none c0 _ hc0d
    simp only [extractNumberFromText, hnorm0, takeDigits, dropDigits, List.cons_append,
      htake.1, htake.2, hlook]
    split
    · rename_i head tail rr heqa heqr
      rw [List.cons.injEq] at heqr
      exact absurd heqr.1 hr0.2.2
    · simp only [leadingDecimalValue, hc0d, if_pos, takeDigits, dropDigits, List.cons_append,
        htake.1, htake.2]
      split
      · rename_i heq3
        rw [List.cons.injEq] at heq3
        exact absurd heq3.1 hr0.2.1
      · rfl

lemma extractNumber_leading_dec (a b rest : List Char)
    (ha : a ≠ []) (had : ∀ c ∈ a, isDigitChar c = true)
    (hb : b ≠ []) (hbd : ∀ c ∈ b, isDigitChar c = true)
    (hrest : ∀ c, rest.head? = some c → isDigitChar (toLowerChar c) = false) :
    extractNumberFromText (a ++ '.' :: (b ++ rest)) = mantissaVal a b := by
  have hx : a ++ '.' :: (b ++ rest) = (a ++ '.' :: b) ++ rest := by
    simp
  have hfix : lowerStr (a ++ '.' :: b) = a ++ '.' :: b := by
    simp only [lowerStr, List.map_append, List.map_cons]
    rw [show toLowerChar '.' = '.' from by decide]
    have h1 := lowerStr_digits a had
    have h2 := lowerStr_digits b hbd
    simp only [lowerStr] at h1 h2
    rw [h1, h2]
  obtain ⟨c0, a2, rfl⟩ : ∃ c0 a2, a = c0 :: a2 := by
    cases a with
    | nil => exact absurd rfl ha
    | cons c0 a2 => exact ⟨c0, a2, rfl⟩
  have hc0d : isDigitChar c0 = true := had c0 (List.mem_cons_self ..)
  have hnorm : trimSpace (lowerStr ((c0 :: a2) ++ '.' :: (b ++ rest)))
      = (c0 :: a2) ++ '.' :: (b ++ trimRightSpace (lowerStr rest)) := by
    rw [hx, trim_lower_lead ((c0 :: a2) ++ '.' :: b) rest (by simp) ?_ ?_ hfix]
    · simp
    · intro c hc
      simp only [List.cons_append, List.head?] at hc
      cases hc
      exact digit_not_space c0 hc0d
    · intro c hc
      rw [List.getLast?_append_of_ne_nil _ (by simp : '.' :: b ≠ [])] at hc
      have hbl : ('.' :: b).getLast? = b.getLast? := by
        cases b with
        | nil => exact absurd rfl hb
        | cons b0 b2 => rfl
      rw [hbl] at hc
      exact digit_not_space c (hbd c (List.mem_of_mem_getLast? hc))
  set rest2 := trimRightSpace (lowerStr rest) with hrest2
  have hrest2head : ∀ c, rest2.head? = some c → isDigitChar c = false := by
    intro c hc
    have hne : rest2 ≠ [] := by
      intro hnil
      rw [hnil] at hc
      cases hc
    rw [hrest2, head?_trimRight _ (hrest2 ▸ hne)] at hc
    cases rest with
    | nil => cases hc
    | cons r0 rrest =>
      simp only [lowerStr, List.map_cons, List.head?] at hc
      cases hc
      exact hrest r0 rfl
  have htake := takeDrop_split isDigitChar (c0 :: a2) ('.' :: (b ++ rest2)) had
    (by
      intro c hc
      simp only [List.head?, Option.some.injEq] at hc
      rw [← hc]
      decide)
  have htakeb := takeDrop_split isDigitChar b rest2 hbd hrest2head
  simp only [List.cons_append] at htake hnorm
  have hlook : List.lookup (c0 :: (a2 ++ '.' :: (b ++ rest2))) wordNumberTable = none :=
    lookup_digit_head_none c0 _ hc0d
  simp only [extractNumberFromText, hnorm, takeDigits, dropDigits, List.cons_append,
    htake.1, htake.2, hlook]
  split
  · rename_i head tail rr heqa heqr
    rw [List.cons.injEq] at heqr
    exact absurd heqr.1 (by decide)
  · simp only [leadingDecimalValue, hc0d, if_pos, takeDigits, dropDigits, List.cons_append,
      htake.1, htake.2]
    rw [htakeb.1]

/-- C6 (amended): a string beginning with a fraction `<digits>/<digits>`
(nonzero denominator, next character not a digit) is evaluated by the
number-extraction routine as numerator divided by denominator — checked
before leading-decimal extraction, so `parseNumber("1/2") = 0.5` rather
than 1; a string beginning with a decimal `<digits>.<digits>` whose
next character is not a digit extracts the leading decimal value,
ignoring the trailing text; a string beginning with an integer whose
next character is not a digit, dot or slash extracts the leading
integer, ignoring the trailing text; `parseNumber` accepts the
extracted value only when strictly positive (so
`parseNumber("2 large") = 2.0` and `parseNumber("2.5 large") = 2.5`,
while a leading 0 is rejected); the empty string (after trimming) and
a null value both fail with an error naming the field. -/
theorem c6_leading_number_extraction :
    (∀ (a b rest : List Char),
      a ≠ [] → (∀ c ∈ a, isDigitChar c = true) →
      b ≠ [] → (∀ c ∈ b, isDigitChar c = true) →
      digitsToNat b ≠ 0 →
      (∀ c, rest.head? = some c → isDigitChar (toLowerChar c) = false) →
      extractNumberFromText (a ++ '/' :: (b ++ rest))
        = (natQ (digitsToNat a)).div (natQ (digitsToNat b)))
    ∧ (∀ (a b rest : List Char),
      a ≠ [] → (∀ c ∈ a, isDigitChar c = true) →
      b ≠ [] → (∀ c ∈ b, isDigitChar c = true) →
      (∀ c, rest.head? = some c → isDigitChar (toLowerChar c) = false) →
      extractNumberFromText (a ++ '.' :: (b ++ rest)) = mantissaVal a b)
    ∧ (∀ (a rest : List Char),
      a ≠ [] → (∀ c ∈ a, isDigitChar c = true) →
      (∀ c, rest.head? = some c →
        isDigitChar (toLowerChar c) = false ∧ toLowerChar c ≠ '.' ∧ toLowerChar c ≠ '/') →
      extractNumberFromText (a ++ rest) = natQ (digitsToNat a))
    ∧ parseNumberField (.str (("1/2").toList)) (("quantity").toList) = .ok (mkQ 1 2)
    ∧ parseNumberField (.str (("2.5 large").toList)) (("quantity").toList) = .ok (mkQ 5 2)
    ∧ parseNumberField (.str (("2 large").toList)) (("quantity").toList) = .ok (natQ 2)
    ∧ (∀ f : List Char,
        parseNumberField (.str []) f = .error (f ++ (" cannot be empty").toList))
    ∧ (∀ f : List Char,
        parseNumberField .null f = .error (f ++ (" is required").toList)) :=
  ⟨extractNumber_fraction, extractNumber_leading_dec, extractNumber_leading_int,
    by decide, by decide, by decide, fun _ => rfl, fun _ => rfl⟩

/-- C6 witness: the general extraction facts applied to `"1/2 cup"`,
`"2.5 large"` and `"2 large"`. -/
theorem c6_leading_number_extraction_witness :
    extractNumberFromText (("1/2 cup").toList) = mkQ 1 2
    ∧ extractNumberFromText (("2.5 large").toList) = mkQ 5 2
    ∧ extractNumberFromText (("2 large").toList) = natQ 2 := by
  refine ⟨?_, ?_, ?_⟩
  · have h := c6_leading_number_extraction.1 (("1").toList) (("2").toList) ((" cup").toList)
      (by decide) (by decide) (by decide) (by decide) (by decide) (by decide)
    rw [show ("1/2 cup").toList
        = ("1").toList ++ '/' :: ((("2").toList) ++ (" cup").toList) from by decide]
    rw [h]
    decide
  · have h := c6_leading_number_extraction.2.1 (("2").toList) (("5").toList)
      ((" large").toList) (by decide) (by decide) (by decide) (by decide) (by decide)
    rw [show ("2.5 large").toList
        = ("2").toList ++ '.' :: ((("5").toList) ++ (" large").toList) from by decide]
    rw [h]
    decide
  · have h := c6_leading_number_extraction.2.2.1 (("2").toList) ((" large").toList)
      (by decide) (by decide) (by decide)
    rw [show ("2 large").toList = ("2").toList ++ (" large").toList from by decide]
    rw [h]
    decide

lemma foldl_ru_false : ∀ l : List (List Char),
    l.foldl (fun acc r => if containsSubstr r toolCallToken then false else acc) false
      = false := by
  intro l
  induction l with
  | nil => rfl
  | cons r rest ih =>
    rw [List.foldl_cons]
    have hstep : (if containsSubstr r toolCallToken = true then false else false) = false := by
      split <;> rfl
    rw [hstep]
    exact ih

lemma stepRun_cont_inv (provider : List Message → Except (List Char) Response)
    (executor : ToolCall → List Char) (s s2 : LoopState) (ex : List ToolCall)
    (res : List (List Char)) (ro : Option Response)
    (h : stepRun provider executor s = .cont s2 ex res ro) :
    (ro = none ∧ ex = [] ∧ res = [])
    ∨ (∃ resp, ro = some resp ∧ ex = resp.toolCalls ∧ res = resp.toolCalls.map executor
        ∧ (res ≠ [] →
            s2.readUserInput = false
            ∧ s2.conversation
              = convWithInput s
                ++ ⟨("assistant").toList, resp.content⟩ :: res.map toolResultMsg)) := by
  simp only [stepRun] at h
  cases hru : s.readUserInput <;> rw [hru] at h <;> simp only [Bool.false_eq_true,
    if_true, if_false, ite_true, ite_false] at h
  · -- readUserInput = false: no input consumed
    cases hp : provider s.conversation with
    | error er =>
      simp only [hp] at h
      by_cases hr : isRecoverableError er = true
      · rw [if_pos hr] at h
        injection h with h1 h2 h3 h4
        exact Or.inl ⟨h4.symm, h2.symm, h3.symm⟩
      · rw [if_neg hr] at h
        cases h
    | ok resp =>
      simp only [hp] at h
      by_cases hres : (resp.toolCalls.map executor).isEmpty = true
      · rw [if_pos hres] at h
        injection h with h1 h2 h3 h4
        refine Or.inr ⟨resp, h4.symm, h2.symm, h3.symm, ?_⟩
        intro hne
        rw [← h3] at hne
        exact absurd (List.isEmpty_iff.mp hres) hne
      · rw [if_neg hres] at h
        injection h with h1 h2 h3 h4
        refine Or.inr ⟨resp, h4.symm, h2.symm, h3.symm, ?_⟩
        intro _
        constructor
        · rw [← h1]
          exact foldl_ru_false _
        · rw [← h1, ← h3]
          simp [convWithInput, hru]
  · -- readUserInput = true: one input line consumed first
    cases hin : s.inputs with
    | nil =>
      rw [hin] at h
      cases h
    | cons i rest =>
      rw [hin] at h
      cases hp : provider (s.conversation ++ [⟨("user").toList, i⟩]) with
      | error er =>
        simp only [hp] at h
        by_cases hr : isRecoverableError er = true
        · rw [if_pos hr] at h
          injection h with h1 h2 h3 h4
          exact Or.inl ⟨h4.symm, h2.symm, h3.symm⟩
        · rw [if_neg hr] at h
          cases h
      | ok resp =>
        simp only [hp] at h
        by_cases hres : (resp.toolCalls.map executor).isEmpty = true
        · rw [if_pos hres] at h
          injection h with h1 h2 h3 h4
          refine Or.inr ⟨resp, h4.symm, h2.symm, h3.symm, ?_⟩
          intro hne
          rw [← h3] at hne
          exact absurd (List.isEmpty_iff.mp hres) hne
        · rw [if_neg hres] at h
          injection h with h1 h2 h3 h4
          refine Or.inr ⟨resp, h4.symm, h2.symm, h3.symm, ?_⟩
          intro _
          constructor
          · rw [← h1]
            exact foldl_ru_false _
          · rw [← h1, ← h3]
            simp [convWithInput, hru, hin]

/-- C8: in the conversation loop, every tool result is appended to the
conversation as a user-role turn prefixed `Tool result: `, the loop
then returns to awaiting a model response (`readUserInput` is false, so
no embedded directive in a result is executed in the same round), and
across any number of iterations the tool calls executed are exactly
those parsed from the model responses generated during the run. -/
theorem c8_results_as_user_turns :
    (∀ (provider : List Message → Except (List Char) Response)
       (executor : ToolCall → List Char) (s s2 : LoopState)
       (ex : List ToolCall) (res : List (List Char)) (resp : Response),
      stepRun provider executor s = .cont s2 ex res (some resp) →
      ex = resp.toolCalls
      ∧ res = resp.toolCalls.map executor
      ∧ (res ≠ [] →
          s2.readUserInput = false
          ∧ s2.conversation
            = convWithInput s
              ++ ⟨("assistant").toList, resp.content⟩ :: res.map toolResultMsg))
    ∧ (∀ (provider : List Message → Except (List Char) Response)
       (executor : ToolCall → List Char) (n : Nat) (s : LoopState),
      (runLoop provider executor n s).1
        = ((runLoop provider executor n s).2.map Response.toolCalls).flatten) := by
  constructor
  · intro provider executor s s2 ex res resp h
    rcases stepRun_cont_inv provider executor s s2 ex res _ h with
      ⟨hnone, _, _⟩ | ⟨resp2, hsome, h1, h2, h3⟩
    · cases hnone
    · cases hsome
      exact ⟨h1, h2, h3⟩
  · intro provider executor n
    induction n with
    | zero => intro s; rfl
    | succ m ih =>
      intro s
      simp only [runLoop]
      cases hstep : stepRun provider executor s with
      | halt err => rfl
      | cont s2 ex res ro =>
        have ihs := ih s2
        rcases hrun : runLoop provider executor m s2 with ⟨es, rs⟩
        rw [hrun] at ihs
        simp only at ihs
        rcases stepRun_cont_inv provider executor s s2 ex res ro hstep with
          ⟨hnone, hex, _⟩ | ⟨resp, hsome, hex, _, _⟩
        · subst hnone hex
          simp [hrun, ihs]
        · subst hsome hex
          simp [hrun, ihs]

/-- C8 witness: a concrete iteration — the provider issues one tool
call, the result text embeds a `TOOL_CALL:` directive, yet the executed
calls are exactly the response's, the result is appended as a
`Tool result: ` user turn, and the loop returns to awaiting the model
(`readUserInput = false`). -/
theorem c8_results_as_user_turns_witness :
    (⟨[⟨("assistant").toList, ("ok").toList⟩,
       ⟨("user").toList,
        ("Tool result: Done TOOL_CALL: fitbit_login(\x7b\x7d)").toList⟩],
      false, []⟩ : LoopState).readUserInput = false
    ∧ (⟨[⟨("assistant").toList, ("ok").toList⟩,
         ⟨("user").toList,
          ("Tool result: Done TOOL_CALL: fitbit_login(\x7b\x7d)").toList⟩],
        false, []⟩ : LoopState).conversation
        = convWithInput ⟨[], false, []⟩
          ++ ⟨("assistant").toList, ("ok").toList⟩
            :: ([("Done TOOL_CALL: fitbit_login(\x7b\x7d)").toList]).map toolResultMsg
    ∧ ([⟨("fitbit_login").toList, ("\x7b\x7d").toList⟩] : List ToolCall)
        = (⟨("ok").toList,
            [⟨("fitbit_login").toList, ("\x7b\x7d").toList⟩]⟩ : Response).toolCalls := by
  have hstep : stepRun
      (fun _ => .ok ⟨("ok").toList, [⟨("fitbit_login").toList, ("\x7b\x7d").toList⟩]⟩)
      (fun _ => ("Done TOOL_CALL: fitbit_login(\x7b\x7d)").toList)
      ⟨[], false, []⟩
    = .cont
        ⟨[⟨("assistant").toList, ("ok").toList⟩,
          ⟨("user").toList,
           ("Tool result: Done TOOL_CALL: fitbit_login(\x7b\x7d)").toList⟩],
         false, []⟩
        [⟨("fitbit_login").toList, ("\x7b\x7d").toList⟩]
        [("Done TOOL_CALL: fitbit_login(\x7b\x7d)").toList]
        (some ⟨("ok").toList, [⟨("fitbit_login").toList, ("\x7b\x7d").toList⟩]⟩) := by
    decide
  have h := c8_results_as_user_turns.1 _ _ _ _ _ _ _ hstep
  have h3 := h.2.2 (by decide)
  exact ⟨h3.1, h3.2, h.1⟩

/-- One-step unfolding of the string scanner outside any escape. -/
lemma jsonStrRestAux_cons (c : Char) (cs : List Char) :
    jsonStrRestAux (c :: cs) false 0 =
      (if c = '"' then some cs
       else if c = '\\' then jsonStrRestAux cs true 0
       else if c.toNat < 32 then none
       else jsonStrRestAux cs false 0) := by
  simp [jsonStrRestAux]

/-- One-step unfolding of the string scanner right after a backslash. -/
lemma jsonStrRestAux_esc (c : Char) (cs : List Char) :
    jsonStrRestAux (c :: cs) true 0 =
      (if c ∈ ['"', '\\', '/', 'b', 'f', 'n', 'r', 't'] then jsonStrRestAux cs false 0
       else if c = 'u' then jsonStrRestAux cs false 4
       else none) := by
  simp [jsonStrRestAux]

lemma jsonStrRest_quoteChar (c : Char) (r : List Char) (h : charOK c = true) :
    jsonStrRestAux (goQuoteChar c ++ r) false 0 = jsonStrRestAux r false 0 := by
  simp only [charOK, Bool.or_eq_true, Bool.and_eq_true, decide_eq_true_eq, beq_iff_eq] at h
  rcases h with (((⟨h1, h2⟩ | h) | h) | h)
  · by_cases hq : c = '"'
    · subst hq
      rw [show goQuoteChar '"' = ['\\', '"'] from by decide]
      simp [jsonStrRestAux_cons, jsonStrRestAux_esc]
    · by_cases hbs : c = '\\'
      · subst hbs
        rw [show goQuoteChar '\\' = ['\\', '\\'] from by decide]
        simp [jsonStrRestAux_cons, jsonStrRestAux_esc]
      · have hgq : goQuoteChar c = [c] := by
          simp only [goQuoteChar]
          rw [if_neg hq, if_neg hbs,
            if_neg (by intro he; subst he; exact absurd h1 (by decide)),
            if_neg (by intro he; subst he; exact absurd h1 (by decide)),
            if_neg (by intro he; subst he; exact absurd h1 (by decide)),
            if_neg (by intro he; subst he; exact absurd h1 (by decide)),
            if_neg (by intro he; subst he; exact absurd h1 (by decide)),
            if_neg (by intro he; subst he; exact absurd h1 (by decide)),
            if_neg (by intro he; subst he; exact absurd h1 (by decide)),
            if_pos ⟨h1, h2⟩]
        rw [hgq, List.singleton_append, jsonStrRestAux_cons,
          if_neg hq, if_neg hbs, if_neg (by omega : ¬ c.toNat < 32)]
  · subst h
    rw [show goQuoteChar '\t' = ['\\', 't'] from by decide]
    simp [jsonStrRestAux_cons, jsonStrRestAux_esc]
  · subst h
    rw [show goQuoteChar '\n' = ['\\', 'n'] from by decide]
    simp [jsonStrRestAux_cons, jsonStrRestAux_esc]
  · subst h
    rw [show goQuoteChar '\r' = ['\\', 'r'] from by decide]
    simp [jsonStrRestAux_cons, jsonStrRestAux_esc]

lemma jsonStrRest_quoteBody (s : List Char) (r : List Char)
    (h : ∀ c ∈ s, charOK c = true) :
    jsonStrRestAux ((s.map goQuoteChar).flatten ++ r) false 0 = jsonStrRestAux r false 0 := by
  induction s with
  | nil => rfl
  | cons c s2 ih =>
    simp only [List.map_cons, List.flatten_cons, List.append_assoc]
    rw [jsonStrRest_quoteChar c _ (h c (List.mem_cons_self ..))]
    exact ih (fun c2 hc2 => h c2 (List.mem_cons_of_mem _ hc2))

lemma jsonScan_wrap (s : List Char) (h : ∀ c ∈ s, charOK c = true) (fuel : Nat) :
    jsonScan (fuel + 4) .value (wrapInput s) = some [] := by
  have hw : wrapInput s
      = '{' :: '"' :: 'i' :: 'n' :: 'p' :: 'u' :: 't' :: '"' :: ':' :: ' '
        :: '"' :: ((s.map goQuoteChar).flatten ++ ('"' :: '}' :: [])) := by
    simp [wrapInput, goQuote]
  have hstr1 : ∀ (X : List Char),
      jsonStrRest ('i' :: 'n' :: 'p' :: 'u' :: 't' :: '"' :: X) = some X := fun X => rfl
  have hbody : jsonStrRest ((s.map goQuoteChar).flatten ++ ('"' :: '}' :: []))
      = some ('}' :: []) := by
    show jsonStrRestAux _ false 0 = _
    rw [jsonStrRest_quoteBody s _ h]
    rfl
  rw [hw]
  simp [jsonScan, skipWs, List.dropWhile_cons, hstr1, hbody]

lemma jsonValid_wrapInput (s : List Char) (h : ∀ c ∈ s, charOK c = true) :
    jsonValid (wrapInput s) = true := by
  have hlen : 2 * (wrapInput s).length + 8 = (2 * (wrapInput s).length + 4) + 4 := rfl
  simp only [jsonValid, hlen]
  have hws : skipWs (wrapInput s) = wrapInput s := by
    simp [wrapInput, skipWs, List.dropWhile]
  rw [hws, jsonScan_wrap s h]
  rfl

/-- C2 counterexample: the claim asserts no primary-grammar match is
silently discarded, but a match whose cleaned argument text is empty is
skipped with no emitted call and no error: `TOOL_CALL: fitbit_login()`
matches the primary grammar exactly once, yet the parser returns no
tool calls at all. -/
theorem c2_empty_match_discarded :
    (primaryScan (("TOOL_CALL: fitbit_login()").toList)).length = 1
    ∧ fixCommonJSONIssues (extractBody
        ((primaryScan (("TOOL_CALL: fitbit_login()").toList)).headI).2) = []
    ∧ parseToolCalls (("TOOL_CALL: fitbit_login()").toList) = [] := by
  decide

/-- C2 (amended): every emitted primary-grammar tool call comes from a
primary match whose argument span, after trimming whitespace and
stripping at most one trailing semicolon, is nonempty; the cleaned
text is used verbatim when it is valid JSON and otherwise wrapped as
`\x7b"input": <the cleaned text quoted>\x7d`; and whenever the cleaned
text consists of printable ASCII, tab, newline and carriage-return
characters, the emitted argument bytes are syntactically valid JSON
(for other control characters Go `%q` emits `\xNN` escapes, which JSON
rejects, so validity of the wrapped form needs this restriction).  A
match whose cleaned text is empty is dropped. -/
theorem c2_verbatim_or_wrapped (text : List Char) (q : List Char × List Char)
    (hq : q ∈ parsePrimaryCalls text) :
    ∃ p ∈ primaryScan text, ∃ cleaned : List Char,
      cleaned = fixCommonJSONIssues (extractBody p.2)
      ∧ cleaned ≠ []
      ∧ q.1 = p.1
      ∧ ((jsonValid cleaned = true ∧ q.2 = cleaned)
         ∨ (jsonValid cleaned = false ∧ q.2 = wrapInput cleaned))
      ∧ ((∀ c ∈ cleaned, charOK c = true) → jsonValid q.2 = true) := by
  simp only [parsePrimaryCalls, List.mem_filterMap] at hq
  obtain ⟨p, hp, hf⟩ := hq
  by_cases hc : fixCommonJSONIssues (extractBody p.2) = []
  · rw [if_pos hc] at hf
    exact absurd hf (by simp)
  · rw [if_neg hc] at hf
    injection hf with hf
    refine ⟨p, hp, fixCommonJSONIssues (extractBody p.2), rfl, hc, ?_, ?_, ?_⟩
    · rw [← hf]
    · rw [← hf]
      by_cases hv : jsonValid (fixCommonJSONIssues (extractBody p.2)) = true
      · exact Or.inl ⟨hv, by simp [emitArg, hv]⟩
      · refine Or.inr ⟨by simpa using hv, ?_⟩
        simp only [emitArg]
        rw [if_neg hv]
    · intro hall
      rw [← hf]
      simp only [emitArg]
      by_cases hv : jsonValid (fixCommonJSONIssues (extractBody p.2)) = true
      · rw [if_pos hv]; exact hv
      · rw [if_neg hv]
        exact jsonValid_wrapInput _ hall

/-- C2 witness: the characterization applied to the single call parsed
from `TOOL_CALL: f(not json)`, whose cleaned argument text is not valid
JSON and is wrapped. -/
theorem c2_verbatim_or_wrapped_witness :
    ∃ p ∈ primaryScan (("TOOL_CALL: f(not json)").toList), ∃ cleaned : List Char,
      cleaned = fixCommonJSONIssues (extractBody p.2)
      ∧ cleaned ≠ []
      ∧ (("f").toList, wrapInput (("not json").toList)).1 = p.1
      ∧ ((jsonValid cleaned = true
            ∧ (("f").toList, wrapInput (("not json").toList)).2 = cleaned)
         ∨ (jsonValid cleaned = false
            ∧ (("f").toList, wrapInput (("not json").toList)).2 = wrapInput cleaned))
      ∧ ((∀ c ∈ cleaned, charOK c = true)
          → jsonValid (("f").toList, wrapInput (("not json").toList)).2 = true) :=
  c2_verbatim_or_wrapped (("TOOL_CALL: f(not json)").toList)
    ((("f").toList, wrapInput (("not json").toList))) (by decide)

end FitbitAgent
